import Mathlib

/-!
# noms: rolling value hasher and generated struct-with-unions wrappers

A shallow embedding of

* `go/types/rolling_value_hasher.go` (chunking configuration and the
  boundary-detecting rolling hasher), and
* `nomdl/codegen/test/gen/struct_with_unions.noms.go` (a generated struct with
  two tagged unions, its field codecs, accessors, setters and `Equals`).

Bytes and `uint32` values are natural numbers; a Go `byte` operation that
could leave the byte range is reduced `% 256`.  Packages that the embedded
files import but that are not part of them (the buzhash rolling hash, the
binary writer, the sloppy compressor) are parameters of the embedding.
-/

namespace types

/-! ## Chunking configuration -/

/-- Source: `defaultChunkPattern = uint32(1<<12 - 1)`. -/
def defaultChunkPattern : Nat := (1 <<< 12 - 1) % 2 ^ 32

/-- Source: `defaultChunkWindow = uint32(64)`. -/
def defaultChunkWindow : Nat := 64 % 2 ^ 32

/-- The package-level variables `chunkPattern`, `chunkWindow` (the mutex that
guards them carries no data). -/
structure ChunkGlobals where
  chunkPattern : Nat
  chunkWindow : Nat
  deriving DecidableEq

/-- The values the package-level variables are initialised with. -/
def ChunkGlobals.init : ChunkGlobals :=
  { chunkPattern := defaultChunkPattern, chunkWindow := defaultChunkWindow }

/-- Source: `chunkingConfig()`: reads both variables. -/
def chunkingConfig (g : ChunkGlobals) : Nat × Nat :=
  (g.chunkPattern, g.chunkWindow)

/-- Source: `smallTestChunks()`: assigns both variables. -/
def smallTestChunks (g : ChunkGlobals) : ChunkGlobals :=
  { g with chunkPattern := (1 <<< 8 - 1) % 2 ^ 32, chunkWindow := 64 % 2 ^ 32 }

/-- Source: `normalProductionChunks()`: assigns both variables. -/
def normalProductionChunks (g : ChunkGlobals) : ChunkGlobals :=
  { g with chunkPattern := defaultChunkPattern, chunkWindow := defaultChunkWindow }

/-! ## The rolling value hasher -/

/-- What `rolling_value_hasher.go` uses of the packages it imports:
`buzhash.NewBuzHash`, `(*BuzHash).HashByte`, `(*BuzHash).Sum32`, the binary
writer with its `reset`, and the sloppy compressor with its `Reset`.  The calls
are taken to return (as they do for the window the configuration holds); the
callback that `sloppy.New` is given is not part of the compressor state. -/
structure Imports where
  BuzHash : Type
  NewBuzHash : Nat → BuzHash
  bzHashByte : BuzHash → Nat → BuzHash
  Sum32 : BuzHash → Nat
  binaryNomsWriter : Type
  newBinaryNomsWriter : binaryNomsWriter
  bwReset : binaryNomsWriter → binaryNomsWriter
  Sloppy : Type
  sloppyNew : Sloppy
  sloppyReset : Sloppy → Sloppy

/-- The struct `rollingValueHasher`. -/
structure rollingValueHasher (I : Imports) where
  bw : I.binaryNomsWriter
  bz : I.BuzHash
  crossedBoundary : Bool
  pattern : Nat
  window : Nat
  salt : Nat
  sl : I.Sloppy

/-- Go's `^` on two bytes. -/
def xorByte (a b : Nat) : Nat := (a ^^^ b) % 256

/-- Source: `newRollingValueHasher(salt)`; `g` is the state of the configuration
variables at the time of the call. -/
def newRollingValueHasher (I : Imports) (g : ChunkGlobals) (salt : Nat) :
    rollingValueHasher I :=
  let (pattern, window) := chunkingConfig g
  let w := I.newBinaryNomsWriter
  { bw := w
    bz := I.NewBuzHash window
    crossedBoundary := false
    pattern := pattern
    window := window
    salt := salt
    sl := I.sloppyNew }

/-- Source: `(rv *rollingValueHasher) HashByte(b)`: the updated hasher and the
returned flag. -/
def rollingValueHasher.HashByte {I : Imports} (rv : rollingValueHasher I) (b : Nat) :
    rollingValueHasher I × Bool :=
  if !rv.crossedBoundary then
    let bz := I.bzHashByte rv.bz (xorByte b rv.salt)
    let rv1 := { rv with bz := bz }
    let rv2 := { rv1 with
      crossedBoundary := decide (I.Sum32 rv1.bz &&& rv1.pattern = rv1.pattern) }
    (rv2, rv2.crossedBoundary)
  else
    (rv, rv.crossedBoundary)

/-- Source: `(rv *rollingValueHasher) Reset()`. -/
def rollingValueHasher.Reset {I : Imports} (rv : rollingValueHasher I) :
    rollingValueHasher I :=
  { rv with
    crossedBoundary := false
    bz := I.NewBuzHash rv.window
    bw := I.bwReset rv.bw
    sl := I.sloppyReset rv.sl }

/-- Feeding a byte sequence one byte at a time through `HashByte`: the final
hasher and the flag each call returned, in call order. -/
def rollingValueHasher.feed {I : Imports} :
    rollingValueHasher I → List Nat → rollingValueHasher I × List Bool
  | rv, [] => (rv, [])
  | rv, b :: bs =>
    let (rv1, r) := rv.HashByte b
    let (rv2, rs) := feed rv1 bs
    (rv2, r :: rs)

/-- The buzhash sum after feeding the bytes `bs` to a new hash of window `w`. -/
def rollingSum (I : Imports) (w : Nat) (bs : List Nat) : Nat :=
  I.Sum32 (bs.foldl I.bzHashByte (I.NewBuzHash w))

/-! ### A concrete instance of the imports

A cyclic-polynomial rolling hash over a caller-supplied byte table, in the
shape of the buzhash package, with byte buffers for the writer and the
compressor.  It instantiates `Imports` at concrete inputs. -/

/-- State of the cyclic-polynomial hash: the 32-bit state and the window
contents, oldest byte first. -/
structure CyclicHash where
  state : Nat
  buf : List Nat
  n : Nat
  deriving DecidableEq

/-- Rotate a 32-bit word left by `k` bits. -/
def rotl32 (x k : Nat) : Nat :=
  ((x <<< (k % 32)) ||| (x >>> (32 - k % 32))) % 2 ^ 32

/-- One step: rotate, remove the byte that leaves the window, add the new one. -/
def CyclicHash.hashByte (table : Nat → Nat) (h : CyclicHash) (b : Nat) : CyclicHash :=
  let st := rotl32 h.state 1
  if h.buf.length < h.n then
    { h with state := st ^^^ table b, buf := h.buf ++ [b] }
  else
    match h.buf with
    | [] => { h with state := st ^^^ table b }
    | old :: rest =>
      { h with state := st ^^^ rotl32 (table old) h.n ^^^ table b, buf := rest ++ [b] }

/-- A sample byte table. -/
def sampleTable (b : Nat) : Nat := (b * 2654435761 + 40503) % 2 ^ 32

/-- The sample instance of the imports. -/
def sampleImports : Imports where
  BuzHash := CyclicHash
  NewBuzHash := fun n => { state := 0, buf := [], n := n }
  bzHashByte := CyclicHash.hashByte sampleTable
  Sum32 := fun h => h.state
  binaryNomsWriter := List Nat
  newBinaryNomsWriter := []
  bwReset := fun _ => []
  Sloppy := List Nat
  sloppyNew := []
  sloppyReset := fun _ => []

end types

/-! ## Hashes and the cells that memoise them -/

namespace ref

/-- A `ref.Ref`: the 20-byte digest, read as a number.  `ref.Ref{}` is the
all-zero digest. -/
structure Ref where
  digest : Nat
  deriving DecidableEq

/-- The zero value `ref.Ref{}`. -/
def Ref.zero : Ref := { digest := 0 }

/-- Modelled from the spec: `ref.Ref.IsEmpty` is not in the sources.  A hash is
"memoised lazily", so a cell not yet filled holds the zero digest `ref.Ref{}`,
and `IsEmpty` tests for it. -/
def Ref.IsEmpty (r : Ref) : Bool := r == Ref.zero

end ref

namespace types

/-- A `*ref.Ref`: nil or the address of a cell. -/
abbrev RefPtr := Option Nat

/-- The cells that `&ref.Ref{}` has allocated so far, by address. -/
structure Heap where
  cells : List ref.Ref
  deriving DecidableEq

/-- Go `&ref.Ref{}`: a new cell holding the zero digest, at the next address. -/
def Heap.alloc (h : Heap) : RefPtr × Heap :=
  (some h.cells.length, { cells := h.cells ++ [ref.Ref.zero] })

/-- Go `*r`: none for a nil pointer (and for an address never allocated). -/
def Heap.load (h : Heap) (r : RefPtr) : Option ref.Ref :=
  match r with
  | none => none
  | some a => h.cells[a]?

/-- Go `*r = x` at an allocated address. -/
def Heap.store (h : Heap) (a : Nat) (x : ref.Ref) : Heap :=
  { cells := h.cells.set a x }

/-- A Go `float64`, as its 64-bit IEEE-754 pattern.  The conversions
`types.Float64(val)` and `float64(v)` leave it unchanged. -/
structure float64 where
  bits : Nat
  deriving DecidableEq

/-- The literal `0`. -/
def float64.zero : float64 := { bits := 0 }

/-- The literal `3.14`. -/
def float64.lit_3_14 : float64 := { bits := 0x40091EB851EB851F }

/-- An interface value of type `types.Value`: nil, a primitive, or one of the
three generated types (a generated struct is held with its fields, the pointer
to its hash cell included). -/
inductive Value where
  | nil
  | Bool (b : Bool)
  | UInt32 (n : Nat)
  | Float64 (f : float64)
  | String (s : String)
  | unionBC (unionIndex : Nat) (unionValue : Value) (ref : RefPtr)
  | unionEF (unionIndex : Nat) (unionValue : Value) (ref : RefPtr)
  | structWithUnions (aIndex : Nat) (aValue : Value) (aRef : RefPtr)
      (dIndex : Nat) (dValue : Value) (dRef : RefPtr) (ref : RefPtr)
  deriving DecidableEq

/-- The kinds of the primitive values above. -/
inductive NomsKind where
  | BoolKind
  | UInt32Kind
  | Float64Kind
  | StringKind
  deriving DecidableEq

/-- A `types.Type` descriptor, as its constructor calls build it:
`MakePrimitiveTypeRef(kind)` or `MakeTypeRef(pkgRef, ordinal)`. -/
inductive TypeRef where
  | MakePrimitiveTypeRef (kind : NomsKind)
  | MakeTypeRef (pkgRef : ref.Ref) (ordinal : Nat)
  deriving DecidableEq

/-- Modelled from the spec: `types.Type.Equals` is not in the sources.  A Type
is a "type descriptor (itself a Value)" compared structurally. -/
def TypeRef.Equals (t other : TypeRef) : Bool := t == other

/-- What the generated file takes from its environment: the digest function
behind `Ref()` (`getRef`, the hash of a value's canonical encoding) and the
package ref that `types.RegisterPackage` returned to `init`. -/
structure Env where
  getRef : Value → ref.Ref
  __genPackageInFile_struct_with_unions_CachedRef : ref.Ref

/-- Modelled from the spec: `types.EnsureRef(r, v)` is not in the sources.
"Hashes are memoised lazily": if the cell `r` points to is empty, the hash of
`v` is computed and stored in it; the content of the cell is returned.  A nil
`r` cannot be read (none). -/
def EnsureRef (env : Env) (r : RefPtr) (v : Value) (h : Heap) : Option (ref.Ref × Heap) :=
  match r with
  | none => none
  | some a =>
    match h.cells[a]? with
    | none => none
    | some c =>
      if c.IsEmpty then
        let x := env.getRef v
        some (x, h.store a x)
      else
        some (c, h)

end types

/-! ## The generated file `struct_with_unions.noms.go` -/

namespace gen
open types

/-- The struct `__unionOfBOfFloat64AndCOfString`. -/
structure __unionOfBOfFloat64AndCOfString where
  __unionIndex : Nat
  __unionValue : Value
  ref : RefPtr
  deriving DecidableEq

/-- The struct `__unionOfEOfFloat64AndFOfString`. -/
structure __unionOfEOfFloat64AndFOfString where
  __unionIndex : Nat
  __unionValue : Value
  ref : RefPtr
  deriving DecidableEq

/-- The struct `StructWithUnions`. -/
structure StructWithUnions where
  _a : __unionOfBOfFloat64AndCOfString
  _d : __unionOfEOfFloat64AndFOfString
  ref : RefPtr
  deriving DecidableEq

/-- The struct `__unionOfBOfFloat64AndCOfStringDef`. -/
structure __unionOfBOfFloat64AndCOfStringDef where
  __unionIndex : Nat
  __unionValue : Value
  deriving DecidableEq

/-- The struct `__unionOfEOfFloat64AndFOfStringDef`. -/
structure __unionOfEOfFloat64AndFOfStringDef where
  __unionIndex : Nat
  __unionValue : Value
  deriving DecidableEq

/-- The struct `StructWithUnionsDef`. -/
structure StructWithUnionsDef where
  A : __unionOfBOfFloat64AndCOfStringDef
  D : __unionOfEOfFloat64AndFOfStringDef
  deriving DecidableEq

/-! ### Interface conversions -/

/-- A `__unionOfBOfFloat64AndCOfString` held in a `types.Value`. -/
def __unionOfBOfFloat64AndCOfString.toValue (s : __unionOfBOfFloat64AndCOfString) : Value :=
  Value.unionBC s.__unionIndex s.__unionValue s.ref

/-- A `__unionOfEOfFloat64AndFOfString` held in a `types.Value`. -/
def __unionOfEOfFloat64AndFOfString.toValue (s : __unionOfEOfFloat64AndFOfString) : Value :=
  Value.unionEF s.__unionIndex s.__unionValue s.ref

/-- A `StructWithUnions` held in a `types.Value`. -/
def StructWithUnions.toValue (s : StructWithUnions) : Value :=
  Value.structWithUnions s._a.__unionIndex s._a.__unionValue s._a.ref
    s._d.__unionIndex s._d.__unionValue s._d.ref s.ref

/-- The type assertion `v.(__unionOfBOfFloat64AndCOfString)`; none is the panic. -/
def assertUnionBC : Value → Option __unionOfBOfFloat64AndCOfString
  | Value.unionBC i v r => some { __unionIndex := i, __unionValue := v, ref := r }
  | _ => none

/-- The type assertion `v.(__unionOfEOfFloat64AndFOfString)`; none is the panic. -/
def assertUnionEF : Value → Option __unionOfEOfFloat64AndFOfString
  | Value.unionEF i v r => some { __unionIndex := i, __unionValue := v, ref := r }
  | _ => none

/-- The type assertion `v.(StructWithUnions)`; none is the panic. -/
def assertStructWithUnions : Value → Option StructWithUnions
  | Value.structWithUnions ai av ar di dv dr r =>
    some { _a := { __unionIndex := ai, __unionValue := av, ref := ar }
           _d := { __unionIndex := di, __unionValue := dv, ref := dr }
           ref := r }
  | _ => none

/-- The type assertion `v.(types.UInt32)`; none is the panic. -/
def assertUInt32 : Value → Option Nat
  | Value.UInt32 n => some n
  | _ => none

/-- The type assertion `v.(types.Float64)`; none is the panic. -/
def assertFloat64 : Value → Option float64
  | Value.Float64 f => some f
  | _ => none

/-- The type assertion `v.(types.String)`; none is the panic. -/
def assertString : Value → Option String
  | Value.String s => some s
  | _ => none

/-- Modelled from the spec: `types.NewString` is not in the sources.  A String
value is its "UTF-8 byte sequence"; `NewString(s)` holds the text `s` and
`String()` returns it. -/
def NewString (s : String) : Value := Value.String s

/-! ### Type descriptors set by `init` -/

/-- Source: `__typeRefForStructWithUnions = types.MakeTypeRef(pkgRef, 0)`. -/
def __typeRefForStructWithUnions (env : Env) : TypeRef :=
  TypeRef.MakeTypeRef env.__genPackageInFile_struct_with_unions_CachedRef 0

/-- Source: `__typeRefFor__unionOfBOfFloat64AndCOfString = types.MakeTypeRef(pkgRef, 1)`. -/
def __typeRefFor__unionOfBOfFloat64AndCOfString (env : Env) : TypeRef :=
  TypeRef.MakeTypeRef env.__genPackageInFile_struct_with_unions_CachedRef 1

/-- Source: `__typeRefFor__unionOfEOfFloat64AndFOfString = types.MakeTypeRef(pkgRef, 2)`. -/
def __typeRefFor__unionOfEOfFloat64AndFOfString (env : Env) : TypeRef :=
  TypeRef.MakeTypeRef env.__genPackageInFile_struct_with_unions_CachedRef 2

/-- The method `Type()` of a non-nil `types.Value`, by dynamic type: the
generated types return their package variable; the primitives (not in the
sources) their primitive type.  A nil interface has no method to call (none). -/
def valueType (env : Env) : Value → Option TypeRef
  | Value.nil => none
  | Value.Bool _ => some (TypeRef.MakePrimitiveTypeRef NomsKind.BoolKind)
  | Value.UInt32 _ => some (TypeRef.MakePrimitiveTypeRef NomsKind.UInt32Kind)
  | Value.Float64 _ => some (TypeRef.MakePrimitiveTypeRef NomsKind.Float64Kind)
  | Value.String _ => some (TypeRef.MakePrimitiveTypeRef NomsKind.StringKind)
  | Value.unionBC _ _ _ => some (__typeRefFor__unionOfBOfFloat64AndCOfString env)
  | Value.unionEF _ _ _ => some (__typeRefFor__unionOfEOfFloat64AndFOfString env)
  | Value.structWithUnions _ _ _ _ _ _ _ => some (__typeRefForStructWithUnions env)

/-- The method `Ref()` of a non-nil `types.Value`, by dynamic type: the
generated types call `types.EnsureRef(s.ref, s)`; the primitives (not in the
sources) are taken to hash themselves without a cell. -/
def valueRef (env : Env) (v : Value) (h : Heap) : Option (ref.Ref × Heap) :=
  match v with
  | Value.nil => none
  | Value.unionBC _ _ r => EnsureRef env r v h
  | Value.unionEF _ _ r => EnsureRef env r v h
  | Value.structWithUnions _ _ _ _ _ _ r => EnsureRef env r v h
  | _ => some (env.getRef v, h)

/-! ### `__unionOfBOfFloat64AndCOfString` -/

/-- Source: `New__unionOfBOfFloat64AndCOfString()`. -/
def New__unionOfBOfFloat64AndCOfString (h : Heap) : __unionOfBOfFloat64AndCOfString × Heap :=
  let (p, h1) := h.alloc
  ({ __unionIndex := 0, __unionValue := Value.Float64 float64.zero, ref := p }, h1)

/-- Source: `(def __unionOfBOfFloat64AndCOfStringDef) New()`. -/
def __unionOfBOfFloat64AndCOfStringDef.New (d : __unionOfBOfFloat64AndCOfStringDef)
    (h : Heap) : __unionOfBOfFloat64AndCOfString × Heap :=
  let (p, h1) := h.alloc
  ({ __unionIndex := d.__unionIndex, __unionValue := d.__unionValue, ref := p }, h1)

/-- Source: `(s __unionOfBOfFloat64AndCOfString) Def()`. -/
def __unionOfBOfFloat64AndCOfString.Def (s : __unionOfBOfFloat64AndCOfString) :
    __unionOfBOfFloat64AndCOfStringDef :=
  { __unionIndex := s.__unionIndex, __unionValue := s.__unionValue }

/-- Source: `builderFor__unionOfBOfFloat64AndCOfString(values)`; none is a panic (index
out of range or a failed type assertion). -/
def builderFor__unionOfBOfFloat64AndCOfString (values : List Value) (h : Heap) :
    Option (Value × Heap) :=
  let i := 0
  let (p, h1) := h.alloc
  let s : __unionOfBOfFloat64AndCOfString :=
    { __unionIndex := 0, __unionValue := Value.nil, ref := p }
  match values[i]? with
  | none => none
  | some v0 =>
    match assertUInt32 v0 with
    | none => none
    | some n =>
      let s := { s with __unionIndex := n }
      let i := i + 1
      match values[i]? with
      | none => none
      | some v1 =>
        let s := { s with __unionValue := v1 }
        some (s.toValue, h1)

/-- Source: `readerFor__unionOfBOfFloat64AndCOfString(v)`; none is a panic (failed type
assertion). -/
def readerFor__unionOfBOfFloat64AndCOfString (v : Value) : Option (List Value) :=
  let values : List Value := []
  match assertUnionBC v with
  | none => none
  | some s =>
    let values := values ++ [Value.UInt32 s.__unionIndex]
    let values := values ++ [s.__unionValue]
    some values

/-- Source: `(s __unionOfBOfFloat64AndCOfString) Ref()`. -/
def __unionOfBOfFloat64AndCOfString.Ref (env : Env) (s : __unionOfBOfFloat64AndCOfString)
    (h : Heap) : Option (ref.Ref × Heap) :=
  EnsureRef env s.ref s.toValue h

/-- Source: `(s __unionOfBOfFloat64AndCOfString) B()`; none is a panic (failed type
assertion). -/
def __unionOfBOfFloat64AndCOfString.B (s : __unionOfBOfFloat64AndCOfString) :
    Option (float64 × Bool) :=
  if s.__unionIndex != 0 then
    some (float64.zero, false)
  else
    match assertFloat64 s.__unionValue with
    | none => none
    | some f => some (f, true)

/-- Source: `(s __unionOfBOfFloat64AndCOfString) SetB(val)`. -/
def __unionOfBOfFloat64AndCOfString.SetB (s : __unionOfBOfFloat64AndCOfString)
    (val : float64) (h : Heap) : __unionOfBOfFloat64AndCOfString × Heap :=
  let s := { s with __unionIndex := 0 }
  let s := { s with __unionValue := Value.Float64 val }
  let (p, h1) := h.alloc
  let s := { s with ref := p }
  (s, h1)

/-- Source: `(s __unionOfBOfFloat64AndCOfString) C()`; none is a panic (failed type
assertion). -/
def __unionOfBOfFloat64AndCOfString.C (s : __unionOfBOfFloat64AndCOfString) :
    Option (String × Bool) :=
  if s.__unionIndex != 1 then
    some ("", false)
  else
    match assertString s.__unionValue with
    | none => none
    | some str => some (str, true)

/-- Source: `(s __unionOfBOfFloat64AndCOfString) SetC(val)`. -/
def __unionOfBOfFloat64AndCOfString.SetC (s : __unionOfBOfFloat64AndCOfString)
    (val : String) (h : Heap) : __unionOfBOfFloat64AndCOfString × Heap :=
  let s := { s with __unionIndex := 1 }
  let s := { s with __unionValue := NewString val }
  let (p, h1) := h.alloc
  let s := { s with ref := p }
  (s, h1)

/-! ### `__unionOfEOfFloat64AndFOfString` -/

/-- Source: `New__unionOfEOfFloat64AndFOfString()`. -/
def New__unionOfEOfFloat64AndFOfString (h : Heap) : __unionOfEOfFloat64AndFOfString × Heap :=
  let (p, h1) := h.alloc
  ({ __unionIndex := 0, __unionValue := Value.Float64 float64.zero, ref := p }, h1)

/-- Source: `(def __unionOfEOfFloat64AndFOfStringDef) New()`. -/
def __unionOfEOfFloat64AndFOfStringDef.New (d : __unionOfEOfFloat64AndFOfStringDef)
    (h : Heap) : __unionOfEOfFloat64AndFOfString × Heap :=
  let (p, h1) := h.alloc
  ({ __unionIndex := d.__unionIndex, __unionValue := d.__unionValue, ref := p }, h1)

/-- Source: `(s __unionOfEOfFloat64AndFOfString) Def()`. -/
def __unionOfEOfFloat64AndFOfString.Def (s : __unionOfEOfFloat64AndFOfString) :
    __unionOfEOfFloat64AndFOfStringDef :=
  { __unionIndex := s.__unionIndex, __unionValue := s.__unionValue }

/-- Source: `builderFor__unionOfEOfFloat64AndFOfString(values)`; none is a panic (index
out of range or a failed type assertion). -/
def builderFor__unionOfEOfFloat64AndFOfString (values : List Value) (h : Heap) :
    Option (Value × Heap) :=
  let i := 0
  let (p, h1) := h.alloc
  let s : __unionOfEOfFloat64AndFOfString :=
    { __unionIndex := 0, __unionValue := Value.nil, ref := p }
  match values[i]? with
  | none => none
  | some v0 =>
    match assertUInt32 v0 with
    | none => none
    | some n =>
      let s := { s with __unionIndex := n }
      let i := i + 1
      match values[i]? with
      | none => none
      | some v1 =>
        let s := { s with __unionValue := v1 }
        some (s.toValue, h1)

/-- Source: `readerFor__unionOfEOfFloat64AndFOfString(v)`; none is a panic (failed type
assertion). -/
def readerFor__unionOfEOfFloat64AndFOfString (v : Value) : Option (List Value) :=
  let values : List Value := []
  match assertUnionEF v with
  | none => none
  | some s =>
    let values := values ++ [Value.UInt32 s.__unionIndex]
    let values := values ++ [s.__unionValue]
    some values

/-- Source: `(s __unionOfEOfFloat64AndFOfString) Ref()`. -/
def __unionOfEOfFloat64AndFOfString.Ref (env : Env) (s : __unionOfEOfFloat64AndFOfString)
    (h : Heap) : Option (ref.Ref × Heap) :=
  EnsureRef env s.ref s.toValue h

/-- Source: `(s __unionOfEOfFloat64AndFOfString) E()`; none is a panic (failed type
assertion). -/
def __unionOfEOfFloat64AndFOfString.E (s : __unionOfEOfFloat64AndFOfString) :
    Option (float64 × Bool) :=
  if s.__unionIndex != 0 then
    some (float64.zero, false)
  else
    match assertFloat64 s.__unionValue with
    | none => none
    | some f => some (f, true)

/-- Source: `(s __unionOfEOfFloat64AndFOfString) SetE(val)`. -/
def __unionOfEOfFloat64AndFOfString.SetE (s : __unionOfEOfFloat64AndFOfString)
    (val : float64) (h : Heap) : __unionOfEOfFloat64AndFOfString × Heap :=
  let s := { s with __unionIndex := 0 }
  let s := { s with __unionValue := Value.Float64 val }
  let (p, h1) := h.alloc
  let s := { s with ref := p }
  (s, h1)

/-- Source: `(s __unionOfEOfFloat64AndFOfString) F()`; none is a panic (failed type
assertion). -/
def __unionOfEOfFloat64AndFOfString.F (s : __unionOfEOfFloat64AndFOfString) :
    Option (String × Bool) :=
  if s.__unionIndex != 1 then
    some ("", false)
  else
    match assertString s.__unionValue with
    | none => none
    | some str => some (str, true)

/-- Source: `(s __unionOfEOfFloat64AndFOfString) SetF(val)`. -/
def __unionOfEOfFloat64AndFOfString.SetF (s : __unionOfEOfFloat64AndFOfString)
    (val : String) (h : Heap) : __unionOfEOfFloat64AndFOfString × Heap :=
  let s := { s with __unionIndex := 1 }
  let s := { s with __unionValue := NewString val }
  let (p, h1) := h.alloc
  let s := { s with ref := p }
  (s, h1)

/-! ### `StructWithUnions` -/

/-- Source: `NewStructWithUnions()`. -/
def NewStructWithUnions (h : Heap) : StructWithUnions × Heap :=
  let (a, h1) := New__unionOfBOfFloat64AndCOfString h
  let (d, h2) := New__unionOfEOfFloat64AndFOfString h1
  let (p, h3) := h2.alloc
  ({ _a := a, _d := d, ref := p }, h3)

/-- Source: `(def StructWithUnionsDef) New()`. -/
def StructWithUnionsDef.New (d : StructWithUnionsDef) (h : Heap) : StructWithUnions × Heap :=
  let (a, h1) := d.A.New h
  let (d1, h2) := d.D.New h1
  let (p, h3) := h2.alloc
  ({ _a := a, _d := d1, ref := p }, h3)

/-- Source: `(s StructWithUnions) Def()`. -/
def StructWithUnions.Def (s : StructWithUnions) : StructWithUnionsDef :=
  { A := s._a.Def, D := s._d.Def }

/-- Source: `builderForStructWithUnions(values)`; none is a panic (index out of range
or a failed type assertion). -/
def builderForStructWithUnions (values : List Value) (h : Heap) : Option (Value × Heap) :=
  let i := 0
  let (p, h1) := h.alloc
  let s : StructWithUnions :=
    { _a := { __unionIndex := 0, __unionValue := Value.nil, ref := none }
      _d := { __unionIndex := 0, __unionValue := Value.nil, ref := none }
      ref := p }
  match values[i]? with
  | none => none
  | some v0 =>
    match assertUnionBC v0 with
    | none => none
    | some a =>
      let s := { s with _a := a }
      let i := i + 1
      match values[i]? with
      | none => none
      | some v1 =>
        match assertUnionEF v1 with
        | none => none
        | some d =>
          let s := { s with _d := d }
          some (s.toValue, h1)

/-- Source: `readerForStructWithUnions(v)`; none is a panic (failed type assertion). -/
def readerForStructWithUnions (v : Value) : Option (List Value) :=
  let values : List Value := []
  match assertStructWithUnions v with
  | none => none
  | some s =>
    let values := values ++ [s._a.toValue]
    let values := values ++ [s._d.toValue]
    some values

/-- Source: `(s StructWithUnions) Ref()`. -/
def StructWithUnions.Ref (env : Env) (s : StructWithUnions) (h : Heap) :
    Option (ref.Ref × Heap) :=
  EnsureRef env s.ref s.toValue h

/-- Source: `(s StructWithUnions) Equals(other)`: the conjunction is evaluated left to
right and stops at the first false operand; none is a panic. -/
def StructWithUnions.Equals (env : Env) (s : StructWithUnions) (other : Value) (h : Heap) :
    Option (Bool × Heap) :=
  if other = Value.nil then
    some (false, h)
  else
    match valueType env other with
    | none => none
    | some t =>
      if !(__typeRefForStructWithUnions env).Equals t then
        some (false, h)
      else
        match s.Ref env h with
        | none => none
        | some (r1, h1) =>
          match valueRef env other h1 with
          | none => none
          | some (r2, h2) => some (r1 == r2, h2)

/-- Source: `(s StructWithUnions) A()`. -/
def StructWithUnions.A (s : StructWithUnions) : __unionOfBOfFloat64AndCOfString :=
  s._a

/-- Source: `(s StructWithUnions) SetA(val)`. -/
def StructWithUnions.SetA (s : StructWithUnions) (val : __unionOfBOfFloat64AndCOfString)
    (h : Heap) : StructWithUnions × Heap :=
  let s := { s with _a := val }
  let (p, h1) := h.alloc
  let s := { s with ref := p }
  (s, h1)

/-- Source: `(s StructWithUnions) D()`. -/
def StructWithUnions.D (s : StructWithUnions) : __unionOfEOfFloat64AndFOfString :=
  s._d

/-- Source: `(s StructWithUnions) SetD(val)`. -/
def StructWithUnions.SetD (s : StructWithUnions) (val : __unionOfEOfFloat64AndFOfString)
    (h : Heap) : StructWithUnions × Heap :=
  let s := { s with _d := val }
  let (p, h1) := h.alloc
  let s := { s with ref := p }
  (s, h1)

/-! ### Setter sequences and hash cells -/

/-- A call of `SetB` or `SetC`. -/
inductive SetBC where
  | SetB (val : float64)
  | SetC (val : String)
  deriving DecidableEq

/-- A call of `SetE` or `SetF`. -/
inductive SetEF where
  | SetE (val : float64)
  | SetF (val : String)
  deriving DecidableEq

/-- The calls `ops`, in order, each on the result of the one before. -/
def applySetBC : List SetBC → __unionOfBOfFloat64AndCOfString → Heap →
    __unionOfBOfFloat64AndCOfString × Heap
  | [], s, h => (s, h)
  | SetBC.SetB val :: ops, s, h => let (s1, h1) := s.SetB val h; applySetBC ops s1 h1
  | SetBC.SetC val :: ops, s, h => let (s1, h1) := s.SetC val h; applySetBC ops s1 h1

/-- The calls `ops`, in order, each on the result of the one before. -/
def applySetEF : List SetEF → __unionOfEOfFloat64AndFOfString → Heap →
    __unionOfEOfFloat64AndFOfString × Heap
  | [], s, h => (s, h)
  | SetEF.SetE val :: ops, s, h => let (s1, h1) := s.SetE val h; applySetEF ops s1 h1
  | SetEF.SetF val :: ops, s, h => let (s1, h1) := s.SetF val h; applySetEF ops s1 h1

/-- The hash cell of `s` has been allocated. -/
def StructWithUnions.cellAllocated (h : Heap) (s : StructWithUnions) : Bool :=
  (h.load s.ref).isSome

/-- The digest `s.Ref()` returns in heap `h`, without the update of the cell. -/
def StructWithUnions.peekRef (env : Env) (h : Heap) (s : StructWithUnions) : Option ref.Ref :=
  match h.load s.ref with
  | none => none
  | some c => if c.IsEmpty then some (env.getRef s.toValue) else some c

/-- Two structs that share a hash cell have the same hash. -/
def StructWithUnions.shareSafely (env : Env) (s t : StructWithUnions) : Bool :=
  s.ref != t.ref || env.getRef s.toValue == env.getRef t.toValue

/-! ### A concrete environment -/

/-- A sample digest function: a fold over the fields a value is encoded from
(the cell pointers are not part of it). -/
def sampleGetRef : Value → ref.Ref
  | Value.nil => { digest := 1 }
  | Value.Bool b => { digest := if b then 3 else 2 }
  | Value.UInt32 n => { digest := 5 + 7 * n }
  | Value.Float64 f => { digest := 11 + 13 * f.bits }
  | Value.String s => { digest := 17 + 19 * s.length }
  | Value.unionBC i v _ => { digest := 23 + 29 * i + 31 * (sampleGetRef v).digest }
  | Value.unionEF i v _ => { digest := 37 + 41 * i + 43 * (sampleGetRef v).digest }
  | Value.structWithUnions ai av _ di dv _ _ =>
    { digest := 47 + 53 * ai + 59 * (sampleGetRef av).digest + 61 * di +
        67 * (sampleGetRef dv).digest }

/-- The sample environment. -/
def sampleEnv : Env where
  getRef := sampleGetRef
  __genPackageInFile_struct_with_unions_CachedRef := { digest := 1001 }

/-- The zero value `StructWithUnions{}`: zero indices, nil values, nil cells. -/
def StructWithUnions.zeroValue : StructWithUnions :=
  { _a := { __unionIndex := 0, __unionValue := Value.nil, ref := none }
    _d := { __unionIndex := 0, __unionValue := Value.nil, ref := none }
    ref := none }

/-- A first struct: `NewStructWithUnions()` on the empty heap. -/
def sampleS : StructWithUnions × Heap := NewStructWithUnions { cells := [] }

/-- A second struct: `NewStructWithUnions()` called next. -/
def sampleT : StructWithUnions × Heap := NewStructWithUnions sampleS.2

/-- A third struct: the second one after `SetA` with its own `A()`. -/
def sampleU : StructWithUnions × Heap := sampleT.1.SetA sampleT.1.A sampleT.2

end gen

namespace types

/-! ### Calls on a constructed hasher -/

/-- A call made after a hasher has been constructed: one of its methods, or
one of the functions that assign the configuration variables. -/
inductive HasherCall where
  | HashByte (b : Nat)
  | Reset
  | smallTestChunks
  | normalProductionChunks
  deriving DecidableEq

/-- The effect of one call on the configuration variables and the hasher. -/
def HasherCall.run {I : Imports} :
    HasherCall → ChunkGlobals × rollingValueHasher I → ChunkGlobals × rollingValueHasher I
  | HasherCall.HashByte b, (g, rv) => (g, (rv.HashByte b).1)
  | HasherCall.Reset, (g, rv) => (g, rv.Reset)
  | HasherCall.smallTestChunks, (g, rv) => (types.smallTestChunks g, rv)
  | HasherCall.normalProductionChunks, (g, rv) => (types.normalProductionChunks g, rv)

/-- The calls `calls`, in order. -/
def runCalls {I : Imports} (calls : List HasherCall)
    (st : ChunkGlobals × rollingValueHasher I) : ChunkGlobals × rollingValueHasher I :=
  calls.foldl (fun st c => c.run st) st

/-- The cell `r` points to is allocated and is empty or holds the hash of `v`. -/
def cacheCoherent (env : Env) (h : Heap) (r : RefPtr) (v : Value) : Bool :=
  match h.load r with
  | none => false
  | some c => c.IsEmpty || c == env.getRef v

/-- A setter that started in heap `h` on a receiver with cell `r` ended in heap
`h1` with a result `v1` whose cell is `r1`: the cell `r1` is new and empty, it
is not the receiver's, the receiver's cell holds what it held, and `Ref()` of
the result is the hash of the result's fields. -/
def freshCacheAfter (env : Env) (h : Heap) (r : RefPtr) (h1 : Heap) (r1 : RefPtr)
    (v1 : Value) : Prop :=
  h.load r1 = none ∧ h1.load r1 = some ref.Ref.zero ∧ r1 ≠ r ∧ h1.load r = h.load r ∧
    ∃ h2, EnsureRef env r1 v1 h1 = some (env.getRef v1, h2)

end types

namespace gen
open types

/-! ### The Def types of the unions -/

/-- Source: `(def __unionOfBOfFloat64AndCOfStringDef) B()`; none is a panic
(failed type assertion). -/
def __unionOfBOfFloat64AndCOfStringDef.B (d : __unionOfBOfFloat64AndCOfStringDef) :
    Option (float64 × Bool) :=
  if d.__unionIndex != 0 then
    some (float64.zero, false)
  else
    match assertFloat64 d.__unionValue with
    | none => none
    | some f => some (f, true)

/-- Source: `(def __unionOfBOfFloat64AndCOfStringDef) SetB(val)`. -/
def __unionOfBOfFloat64AndCOfStringDef.SetB (d : __unionOfBOfFloat64AndCOfStringDef)
    (val : float64) : __unionOfBOfFloat64AndCOfStringDef :=
  let d := { d with __unionIndex := 0 }
  let d := { d with __unionValue := Value.Float64 val }
  d

/-- Source: `(def __unionOfBOfFloat64AndCOfStringDef) C()`; none is a panic
(failed type assertion). -/
def __unionOfBOfFloat64AndCOfStringDef.C (d : __unionOfBOfFloat64AndCOfStringDef) :
    Option (String × Bool) :=
  if d.__unionIndex != 1 then
    some ("", false)
  else
    match assertString d.__unionValue with
    | none => none
    | some str => some (str, true)

/-- Source: `(def __unionOfBOfFloat64AndCOfStringDef) SetC(val)`. -/
def __unionOfBOfFloat64AndCOfStringDef.SetC (d : __unionOfBOfFloat64AndCOfStringDef)
    (val : String) : __unionOfBOfFloat64AndCOfStringDef :=
  let d := { d with __unionIndex := 1 }
  let d := { d with __unionValue := NewString val }
  d

/-- Source: `(def __unionOfEOfFloat64AndFOfStringDef) E()`; none is a panic
(failed type assertion). -/
def __unionOfEOfFloat64AndFOfStringDef.E (d : __unionOfEOfFloat64AndFOfStringDef) :
    Option (float64 × Bool) :=
  if d.__unionIndex != 0 then
    some (float64.zero, false)
  else
    match assertFloat64 d.__unionValue with
    | none => none
    | some f => some (f, true)

/-- Source: `(def __unionOfEOfFloat64AndFOfStringDef) SetE(val)`. -/
def __unionOfEOfFloat64AndFOfStringDef.SetE (d : __unionOfEOfFloat64AndFOfStringDef)
    (val : float64) : __unionOfEOfFloat64AndFOfStringDef :=
  let d := { d with __unionIndex := 0 }
  let d := { d with __unionValue := Value.Float64 val }
  d

/-- Source: `(def __unionOfEOfFloat64AndFOfStringDef) F()`; none is a panic
(failed type assertion). -/
def __unionOfEOfFloat64AndFOfStringDef.F (d : __unionOfEOfFloat64AndFOfStringDef) :
    Option (String × Bool) :=
  if d.__unionIndex != 1 then
    some ("", false)
  else
    match assertString d.__unionValue with
    | none => none
    | some str => some (str, true)

/-- Source: `(def __unionOfEOfFloat64AndFOfStringDef) SetF(val)`. -/
def __unionOfEOfFloat64AndFOfStringDef.SetF (d : __unionOfEOfFloat64AndFOfStringDef)
    (val : String) : __unionOfEOfFloat64AndFOfStringDef :=
  let d := { d with __unionIndex := 1 }
  let d := { d with __unionValue := NewString val }
  d

/-- The zero value `StructWithUnionsDef{}`: both fields hold index 0 and a nil
value. -/
def StructWithUnionsDef.zeroValue : StructWithUnionsDef :=
  { A := { __unionIndex := 0, __unionValue := Value.nil }
    D := { __unionIndex := 0, __unionValue := Value.nil } }

/-! ### Values a client can obtain -/

/-- The branch index and the stored value agree in type: index 0 holds a
Float64, index 1 holds a String. -/
def branchAgrees (index : Nat) (value : Value) : Bool :=
  (index == 0 && (assertFloat64 value).isSome) || (index == 1 && (assertString value).isSome)

/-- A value of one of the six generated types. -/
inductive ApiValue where
  | unionBC (u : __unionOfBOfFloat64AndCOfString)
  | unionBCDef (d : __unionOfBOfFloat64AndCOfStringDef)
  | unionEF (u : __unionOfEOfFloat64AndFOfString)
  | unionEFDef (d : __unionOfEOfFloat64AndFOfStringDef)
  | struct (s : StructWithUnions)
  | structDef (d : StructWithUnionsDef)

/-- In every union of the value, index and stored value agree in type. -/
def ApiValue.branchesAgree : ApiValue → Bool
  | ApiValue.unionBC u => branchAgrees u.__unionIndex u.__unionValue
  | ApiValue.unionBCDef d => branchAgrees d.__unionIndex d.__unionValue
  | ApiValue.unionEF u => branchAgrees u.__unionIndex u.__unionValue
  | ApiValue.unionEFDef d => branchAgrees d.__unionIndex d.__unionValue
  | ApiValue.struct s =>
    branchAgrees s._a.__unionIndex s._a.__unionValue &&
      branchAgrees s._d.__unionIndex s._d.__unionValue
  | ApiValue.structDef d =>
    branchAgrees d.A.__unionIndex d.A.__unionValue &&
      branchAgrees d.D.__unionIndex d.D.__unionValue

/-- The accessors `B()`, `C()`, `E()`, `F()` of every union of the value
return. -/
def ApiValue.accessorsReturn : ApiValue → Bool
  | ApiValue.unionBC u => u.B.isSome && u.C.isSome
  | ApiValue.unionBCDef d => d.B.isSome && d.C.isSome
  | ApiValue.unionEF u => u.E.isSome && u.F.isSome
  | ApiValue.unionEFDef d => d.E.isSome && d.F.isSome
  | ApiValue.struct s => s.A.B.isSome && s.A.C.isSome && s.D.E.isSome && s.D.F.isSome
  | ApiValue.structDef d => d.A.B.isSome && d.A.C.isSome && d.D.E.isSome && d.D.F.isSome

/-- The values a client obtains from the constructors, from a setter (on any
receiver), and from `Def()`, `Def.New()`, `A()`, `D()`, `SetA`, `SetD`, the
fields `A`, `D` and a `StructWithUnionsDef{A: a, D: d}` literal applied to
values obtained before.  The zero value `StructWithUnionsDef{}` is not among
the starting points. -/
inductive Obtainable : ApiValue → Prop where
  | newBC (h : Heap) : Obtainable (ApiValue.unionBC (New__unionOfBOfFloat64AndCOfString h).1)
  | newEF (h : Heap) : Obtainable (ApiValue.unionEF (New__unionOfEOfFloat64AndFOfString h).1)
  | newStruct (h : Heap) : Obtainable (ApiValue.struct (NewStructWithUnions h).1)
  | setB (u : __unionOfBOfFloat64AndCOfString) (val : float64) (h : Heap) :
      Obtainable (ApiValue.unionBC (u.SetB val h).1)
  | setC (u : __unionOfBOfFloat64AndCOfString) (val : String) (h : Heap) :
      Obtainable (ApiValue.unionBC (u.SetC val h).1)
  | setE (u : __unionOfEOfFloat64AndFOfString) (val : float64) (h : Heap) :
      Obtainable (ApiValue.unionEF (u.SetE val h).1)
  | setF (u : __unionOfEOfFloat64AndFOfString) (val : String) (h : Heap) :
      Obtainable (ApiValue.unionEF (u.SetF val h).1)
  | defSetB (d : __unionOfBOfFloat64AndCOfStringDef) (val : float64) :
      Obtainable (ApiValue.unionBCDef (d.SetB val))
  | defSetC (d : __unionOfBOfFloat64AndCOfStringDef) (val : String) :
      Obtainable (ApiValue.unionBCDef (d.SetC val))
  | defSetE (d : __unionOfEOfFloat64AndFOfStringDef) (val : float64) :
      Obtainable (ApiValue.unionEFDef (d.SetE val))
  | defSetF (d : __unionOfEOfFloat64AndFOfStringDef) (val : String) :
      Obtainable (ApiValue.unionEFDef (d.SetF val))
  | defOfBC (u : __unionOfBOfFloat64AndCOfString) :
      Obtainable (ApiValue.unionBC u) → Obtainable (ApiValue.unionBCDef u.Def)
  | defOfEF (u : __unionOfEOfFloat64AndFOfString) :
      Obtainable (ApiValue.unionEF u) → Obtainable (ApiValue.unionEFDef u.Def)
  | defOfStruct (s : StructWithUnions) :
      Obtainable (ApiValue.struct s) → Obtainable (ApiValue.structDef s.Def)
  | newOfBCDef (d : __unionOfBOfFloat64AndCOfStringDef) (h : Heap) :
      Obtainable (ApiValue.unionBCDef d) → Obtainable (ApiValue.unionBC (d.New h).1)
  | newOfEFDef (d : __unionOfEOfFloat64AndFOfStringDef) (h : Heap) :
      Obtainable (ApiValue.unionEFDef d) → Obtainable (ApiValue.unionEF (d.New h).1)
  | newOfStructDef (d : StructWithUnionsDef) (h : Heap) :
      Obtainable (ApiValue.structDef d) → Obtainable (ApiValue.struct (d.New h).1)
  | getA (s : StructWithUnions) :
      Obtainable (ApiValue.struct s) → Obtainable (ApiValue.unionBC s.A)
  | getD (s : StructWithUnions) :
      Obtainable (ApiValue.struct s) → Obtainable (ApiValue.unionEF s.D)
  | setA (s : StructWithUnions) (a : __unionOfBOfFloat64AndCOfString) (h : Heap) :
      Obtainable (ApiValue.struct s) → Obtainable (ApiValue.unionBC a) →
      Obtainable (ApiValue.struct (s.SetA a h).1)
  | setD (s : StructWithUnions) (d : __unionOfEOfFloat64AndFOfString) (h : Heap) :
      Obtainable (ApiValue.struct s) → Obtainable (ApiValue.unionEF d) →
      Obtainable (ApiValue.struct (s.SetD d h).1)
  | fieldA (d : StructWithUnionsDef) :
      Obtainable (ApiValue.structDef d) → Obtainable (ApiValue.unionBCDef d.A)
  | fieldD (d : StructWithUnionsDef) :
      Obtainable (ApiValue.structDef d) → Obtainable (ApiValue.unionEFDef d.D)
  | literal (a : __unionOfBOfFloat64AndCOfStringDef) (d : __unionOfEOfFloat64AndFOfStringDef) :
      Obtainable (ApiValue.unionBCDef a) → Obtainable (ApiValue.unionEFDef d) →
      Obtainable (ApiValue.structDef { A := a, D := d })

end gen

/-! ## The CSV importer `clients/csv_importer/csv_importer.go` -/

namespace csv_importer

/-- The struct `refIndex`; `R` stands for `types.Ref`. -/
structure refIndex (R : Type) where
  ref : R
  index : Int
  deriving DecidableEq

/-- The slice type `refIndexList`. -/
abbrev refIndexList (R : Type) := List (refIndex R)

/-- Source: `(a refIndexList) Len()`. -/
def refIndexList.Len {R : Type} (a : refIndexList R) : Nat := a.length

/-- Source: `(a refIndexList) Swap(i, j)`: `a[i], a[j] = a[j], a[i]`; none is
the index-out-of-range panic. -/
def refIndexList.Swap {R : Type} (a : refIndexList R) (i j : Nat) : Option (refIndexList R) :=
  match a[j]?, a[i]? with
  | some y, some x => some ((a.set i y).set j x)
  | _, _ => none

/-- Source: `(a refIndexList) Less(i, j)`: `a[i].index < a[j].index`; none is
the index-out-of-range panic. -/
def refIndexList.Less {R : Type} (a : refIndexList R) (i j : Nat) : Option Bool :=
  match a[i]?, a[j]? with
  | some x, some y => some (decide (x.index < y.index))
  | _, _ => none

/-- The reader goroutine and the workers: the rows are numbered by
`index := 0 ... index++`, and the worker that turns a row into its ref sends
`refIndex{r, row.index}`.  `refs` are the refs of the rows in source order. -/
def tagRows {R : Type} (index : Int) : List R → List (refIndex R)
  | [] => []
  | r :: refs => { ref := r, index := index } :: tagRows (index + 1) refs

/-- The collector goroutine: `refList = append(refList, r)` for each pair in
the order it arrives on `refChan`. -/
def collect {R : Type} (arrivals : List (refIndex R)) : refIndexList R :=
  arrivals.foldl (fun refList r => refList ++ [r]) []

/-- The loop `for _, r := range refList { refs = append(refs, r.ref) }`. -/
def projectRefs {R : Type} (refList : refIndexList R) : List R :=
  refList.foldl (fun refs r => refs ++ [r.ref]) []

/-- What `sort.Sort(data)` promises of its result `out` (package sort is not
part of the sources): the elements are those of `data`, in ascending order as
determined by `Less`. -/
def sortedByLess {R : Type} (data out : refIndexList R) : Prop :=
  out.Perm data ∧ ∀ i j : Nat, i < j → j < out.Len → out.Less j i = some false

/-- The inner loop of an insertion sort over `Less` and `Swap`:
`for j := i; j > 0 && data.Less(j, j-1); j-- { data.Swap(j, j-1) }`. -/
def insertDown {R : Type} (data : refIndexList R) : Nat → Option (refIndexList R)
  | 0 => some data
  | j + 1 =>
    match data.Less (j + 1) j with
    | none => none
    | some false => some data
    | some true =>
      match data.Swap (j + 1) j with
      | none => none
      | some data1 => insertDown data1 j

/-- The outer loop `for i := ...; i < n; i++`, with `k` iterations left. -/
def insertionLoop {R : Type} (data : refIndexList R) (i : Nat) : Nat → Option (refIndexList R)
  | 0 => some data
  | k + 1 =>
    match insertDown data i with
    | none => none
    | some data1 => insertionLoop data1 (i + 1) k

/-- An insertion sort that touches the data only through `Len`, `Less` and
`Swap`, as `sort.Sort` does: `for i := 1; i < data.Len(); i++ { ... }`. -/
def insertionSort {R : Type} (data : refIndexList R) : Option (refIndexList R) :=
  insertionLoop data 1 (data.Len - 1)

end csv_importer

namespace csv_importer

/-! ### The start of `main`: fetching the URL -/

/-- What `main` reads of an `*http.Response`.  `http.Get` returns a response
with a non-nil `Body`. -/
structure Response where
  Status : String
  StatusCode : Int
  deriving DecidableEq

/-- How the start of `main` can end. -/
inductive MainOutcome where
  /-- Returns after `flag.Usage()`. -/
  | usage
  /-- A run-time panic: nil pointer dereference. -/
  | panicNilDereference
  /-- Exits through `log.Fatalf("Error fetching %s: %+v\n", url, err)`. -/
  | fatalErrorFetching (url err : String)
  /-- Exits through `log.Fatalf("Error fetching %s: %s\n", url, res.Status)`. -/
  | fatalStatus (url status : String)
  /-- Control reaches `csv.NewReader(res.Body)`. -/
  | readsCSV
  deriving DecidableEq

/-- Lines 42 to 63 of `main`.  `dsIsNil` says whether `dsFlags.CreateDataset()`
returned nil, `url` is `flag.Arg(0)`, and `res`, `err` are what
`http.Get(url)` returned (nil is none).  The statements run in source order:
`defer res.Body.Close()` evaluates `res.Body`, which dereferences `res`, before
`err` is looked at. -/
def mainFetch (dsIsNil : Bool) (url : String) (res : Option Response) (err : Option String) :
    MainOutcome :=
  if dsIsNil then
    MainOutcome.usage
  else if dsIsNil || url == "" then
    MainOutcome.usage
  else
    match res with
    | none => MainOutcome.panicNilDereference
    | some r =>
      match err with
      | some e => MainOutcome.fatalErrorFetching url e
      | none =>
        if r.StatusCode != 200 then
          MainOutcome.fatalStatus url r.Status
        else
          MainOutcome.readsCSV

end csv_importer

namespace types

/-! ## Chunking configuration: theorems -/

/-- C5: `chunkingConfig` returns `(2^12-1, 64)` initially and after
`normalProductionChunks`, `(2^8-1, 64)` after `smallTestChunks`;
`normalProductionChunks` after `smallTestChunks` restores the production
defaults, and both setters are idempotent. -/
theorem chunkingConfig_documented_values :
    chunkingConfig ChunkGlobals.init = (2 ^ 12 - 1, 64) ∧
    (∀ g, chunkingConfig (normalProductionChunks g) = (2 ^ 12 - 1, 64)) ∧
    (∀ g, chunkingConfig (smallTestChunks g) = (2 ^ 8 - 1, 64)) ∧
    (∀ g, chunkingConfig (normalProductionChunks (smallTestChunks g)) =
      chunkingConfig ChunkGlobals.init) ∧
    (∀ g, smallTestChunks (smallTestChunks g) = smallTestChunks g) ∧
    (∀ g, normalProductionChunks (normalProductionChunks g) = normalProductionChunks g) := by
  refine ⟨by decide, fun g => ?_, fun g => ?_, fun g => ?_, fun g => rfl, fun g => rfl⟩
  · simp only [chunkingConfig, normalProductionChunks]; decide
  · simp only [chunkingConfig, smallTestChunks]; decide
  · rfl

/-! ## Rolling value hasher: lemmas -/

section hasher
variable {I : Imports}

theorem rollingValueHasher.HashByte_of_crossed (rv : rollingValueHasher I) (b : Nat)
    (h : rv.crossedBoundary = true) : rv.HashByte b = (rv, true) := by
  simp [rollingValueHasher.HashByte, h]

theorem rollingValueHasher.HashByte_of_not_crossed (rv : rollingValueHasher I) (b : Nat)
    (h : rv.crossedBoundary = false) :
    rv.HashByte b =
      ({ rv with
          bz := I.bzHashByte rv.bz (xorByte b rv.salt)
          crossedBoundary :=
            decide (I.Sum32 (I.bzHashByte rv.bz (xorByte b rv.salt)) &&& rv.pattern = rv.pattern) },
        decide (I.Sum32 (I.bzHashByte rv.bz (xorByte b rv.salt)) &&& rv.pattern = rv.pattern)) := by
  simp [rollingValueHasher.HashByte, h]

/-- The flag `HashByte` returns is the flag it leaves in the hasher. -/
theorem rollingValueHasher.HashByte_snd (rv : rollingValueHasher I) (b : Nat) :
    (rv.HashByte b).2 = (rv.HashByte b).1.crossedBoundary := by
  cases h : rv.crossedBoundary
  · rw [rollingValueHasher.HashByte_of_not_crossed rv b h]
  · rw [rollingValueHasher.HashByte_of_crossed rv b h]; exact h.symm

theorem rollingValueHasher.feed_of_crossed (rv : rollingValueHasher I) (bs : List Nat)
    (h : rv.crossedBoundary = true) : rv.feed bs = (rv, List.replicate bs.length true) := by
  induction bs with
  | nil => rfl
  | cons b bs ih =>
    simp [rollingValueHasher.feed, rollingValueHasher.HashByte_of_crossed rv b h, ih,
      List.replicate_succ]

theorem rollingValueHasher.feed_length (rv : rollingValueHasher I) (bs : List Nat) :
    (rv.feed bs).2.length = bs.length := by
  induction bs generalizing rv with
  | nil => rfl
  | cons b bs ih => simp [rollingValueHasher.feed, ih]

/-- The flags returned depend only on the rolling hash, the flag, the pattern
and the salted bytes. -/
theorem rollingValueHasher.feed_snd_congr (s s' : Nat) (bs bs' : List Nat)
    (hbs : bs.map (fun b => xorByte b s) = bs'.map (fun b => xorByte b s')) :
    ∀ rv rv' : rollingValueHasher I, rv.salt = s → rv'.salt = s' → rv.bz = rv'.bz →
      rv.crossedBoundary = rv'.crossedBoundary → rv.pattern = rv'.pattern →
      (rv.feed bs).2 = (rv'.feed bs').2 := by
  induction bs generalizing bs' with
  | nil =>
    cases bs' with
    | nil => intros; rfl
    | cons b' bs' => simp at hbs
  | cons b bs ih =>
    cases bs' with
    | nil => simp at hbs
    | cons b' bs' =>
      simp only [List.map_cons, List.cons.injEq] at hbs
      obtain ⟨hb, hrest⟩ := hbs
      intro rv rv' hs hs' hbz hc hp
      cases hcr : rv.crossedBoundary
      · have hcr' : rv'.crossedBoundary = false := by rw [← hc]; exact hcr
        simp only [rollingValueHasher.feed, rollingValueHasher.HashByte_of_not_crossed rv b hcr,
          rollingValueHasher.HashByte_of_not_crossed rv' b' hcr']
        rw [hs, hs', ← hb, ← hbz, ← hp]
        congr 1
        exact ih bs' hrest _ _ rfl rfl rfl rfl rfl
      · have hcr' : rv'.crossedBoundary = true := by rw [← hc]; exact hcr
        simp only [rollingValueHasher.feed, rollingValueHasher.HashByte_of_crossed rv b hcr,
          rollingValueHasher.HashByte_of_crossed rv' b' hcr']
        congr 1
        exact ih bs' hrest _ _ hs hs' hbz hc hp

/-- From a hasher that has not crossed a boundary, the last flag returned is
true exactly when some non-empty prefix of the salted input brings the rolling
hash onto the pattern. -/
theorem rollingValueHasher.feed_getLast_iff (bs : List Nat) :
    ∀ rv : rollingValueHasher I, rv.crossedBoundary = false →
      ((rv.feed bs).2.getLast? = some true ↔
        ∃ k, 1 ≤ k ∧ k ≤ bs.length ∧
          I.Sum32 (((bs.take k).map (fun b => xorByte b rv.salt)).foldl I.bzHashByte rv.bz)
            &&& rv.pattern = rv.pattern) := by
  induction bs with
  | nil =>
    intro rv _
    simp [rollingValueHasher.feed]
    intro k h1 h0; omega
  | cons b bs ih =>
    intro rv hcr
    simp only [rollingValueHasher.feed, rollingValueHasher.HashByte_of_not_crossed rv b hcr]
    by_cases hx : I.Sum32 (I.bzHashByte rv.bz (xorByte b rv.salt)) &&& rv.pattern = rv.pattern
    · simp only [hx, decide_True]
      rw [rollingValueHasher.feed_of_crossed _ _ rfl]
      constructor
      · intro _
        exact ⟨1, le_refl 1, by simp, by simpa using hx⟩
      · intro _
        rw [← List.replicate_succ]
        simp [List.getLast?_replicate]
    · simp only [hx, decide_False]
      have hlast : ∀ rs : List Bool, (false :: rs).getLast? = some true ↔ rs.getLast? = some true := by
        intro rs
        cases rs with
        | nil => simp
        | cons r rs => simp [List.getLast?_cons_cons]
      rw [hlast, ih _ rfl]
      constructor
      · rintro ⟨k, h1, h2, h3⟩
        refine ⟨k + 1, by omega, by simp; omega, ?_⟩
        simpa using h3
      · rintro ⟨k, h1, h2, h3⟩
        cases k with
        | zero => omega
        | succ k =>
          cases k with
          | zero => exact absurd (by simpa using h3) hx
          | succ k =>
            refine ⟨k + 1, by omega, by simp at h2; omega, ?_⟩
            simpa using h3

end hasher

/-! ## Rolling value hasher: theorems -/

/-- C1: for a hasher that is freshly constructed or has just been `Reset`, with
pattern `P` and salt `S`, the `n`-th `HashByte` call on bytes `b1..bn` returns
true iff for some `1 ≤ k ≤ n` the buzhash sum after `b1^S .. bk^S` satisfies
`sum & P == P`. -/
theorem hashByte_true_iff_boundary_within_first_n (I : Imports) :
    (∀ (g : ChunkGlobals) (S : Nat) (bs : List Nat),
      ((newRollingValueHasher I g S).feed bs).2.length = bs.length ∧
      (((newRollingValueHasher I g S).feed bs).2.getLast? = some true ↔
        ∃ k, 1 ≤ k ∧ k ≤ bs.length ∧
          rollingSum I g.chunkWindow ((bs.take k).map (fun b => xorByte b S))
            &&& g.chunkPattern = g.chunkPattern)) ∧
    (∀ (rv : rollingValueHasher I) (bs : List Nat),
      (rv.Reset.feed bs).2.length = bs.length ∧
      ((rv.Reset.feed bs).2.getLast? = some true ↔
        ∃ k, 1 ≤ k ∧ k ≤ bs.length ∧
          rollingSum I rv.window ((bs.take k).map (fun b => xorByte b rv.salt))
            &&& rv.pattern = rv.pattern)) := by
  constructor
  · intro g S bs
    exact ⟨rollingValueHasher.feed_length _ bs,
      rollingValueHasher.feed_getLast_iff bs (newRollingValueHasher I g S) rfl⟩
  · intro rv bs
    exact ⟨rollingValueHasher.feed_length _ bs,
      rollingValueHasher.feed_getLast_iff bs rv.Reset rfl⟩

/-- C2: once a `HashByte` call has returned true, every later `HashByte` call,
for any bytes, returns true and leaves the hasher (rolling hash included)
unchanged; `Reset` clears the flag. -/
theorem hashByte_sticky (I : Imports) (rv : rollingValueHasher I) (b : Nat)
    (h : (rv.HashByte b).2 = true) :
    (∀ bs : List Nat,
      (rv.HashByte b).1.feed bs = ((rv.HashByte b).1, List.replicate bs.length true)) ∧
    (∀ b1 : Nat, (rv.HashByte b).1.HashByte b1 = ((rv.HashByte b).1, true)) ∧
    (rv.HashByte b).1.Reset.crossedBoundary = false := by
  have hc : (rv.HashByte b).1.crossedBoundary = true := by
    rw [← rollingValueHasher.HashByte_snd]; exact h
  exact ⟨fun bs => rollingValueHasher.feed_of_crossed _ bs hc,
    fun b1 => rollingValueHasher.HashByte_of_crossed _ b1 hc, rfl⟩

/-- Witness for C2: with pattern 3, window 4 and salt 5 the first byte 1
already crosses a boundary. -/
theorem hashByte_sticky_witness :
    ((newRollingValueHasher sampleImports ⟨3, 4⟩ 5).HashByte 1).2 = true ∧
    ((∀ bs : List Nat,
      ((newRollingValueHasher sampleImports ⟨3, 4⟩ 5).HashByte 1).1.feed bs =
        (((newRollingValueHasher sampleImports ⟨3, 4⟩ 5).HashByte 1).1,
          List.replicate bs.length true)) ∧
    (∀ b1 : Nat, ((newRollingValueHasher sampleImports ⟨3, 4⟩ 5).HashByte 1).1.HashByte b1 =
      (((newRollingValueHasher sampleImports ⟨3, 4⟩ 5).HashByte 1).1, true)) ∧
    ((newRollingValueHasher sampleImports ⟨3, 4⟩ 5).HashByte 1).1.Reset.crossedBoundary = false) :=
  ⟨by decide, hashByte_sticky sampleImports (newRollingValueHasher sampleImports ⟨3, 4⟩ 5) 1 (by decide)⟩

/-- C3: after `Reset`, a hasher in any state returns, for every byte sequence,
the same `HashByte` results as a newly constructed hasher with the same
pattern, window and salt, and its `crossedBoundary` is false. -/
theorem reset_behaves_like_new (I : Imports) (rv : rollingValueHasher I) (bs : List Nat) :
    (rv.Reset.feed bs).2 =
      ((newRollingValueHasher I ⟨rv.pattern, rv.window⟩ rv.salt).feed bs).2 ∧
    rv.Reset.crossedBoundary = false ∧
    rv.Reset.pattern = (newRollingValueHasher I ⟨rv.pattern, rv.window⟩ rv.salt).pattern ∧
    rv.Reset.window = (newRollingValueHasher I ⟨rv.pattern, rv.window⟩ rv.salt).window ∧
    rv.Reset.salt = (newRollingValueHasher I ⟨rv.pattern, rv.window⟩ rv.salt).salt :=
  ⟨rollingValueHasher.feed_snd_congr rv.salt rv.salt bs bs rfl _ _ rfl rfl rfl rfl rfl,
    rfl, rfl, rfl, rfl⟩

/-- C4: a hasher with salt `S` fed `bs` returns the same `HashByte` results as
a hasher with salt 0, same pattern and window, fed `bs` with every byte XORed
with `S`. -/
theorem salt_is_xored_into_input (I : Imports) :
    (∀ (g : ChunkGlobals) (S : Nat) (bs : List Nat),
      ((newRollingValueHasher I g S).feed bs).2 =
        ((newRollingValueHasher I g 0).feed (bs.map (fun b => xorByte b S))).2) ∧
    (∀ (rv : rollingValueHasher I) (bs : List Nat),
      (rv.feed bs).2 =
        (({ rv with salt := 0 } : rollingValueHasher I).feed
          (bs.map (fun b => xorByte b rv.salt))).2) := by
  have key : ∀ (S : Nat) (bs : List Nat),
      bs.map (fun b => xorByte b S) =
        (bs.map (fun b => xorByte b S)).map (fun b => xorByte b 0) := by
    intro S bs
    simp [xorByte, Function.comp_def]
  constructor
  · intro g S bs
    exact rollingValueHasher.feed_snd_congr S 0 bs _ (key S bs) _ _ rfl rfl rfl rfl rfl
  · intro rv bs
    exact rollingValueHasher.feed_snd_congr rv.salt 0 bs _ (key rv.salt bs) _ _ rfl rfl rfl rfl rfl

end types

namespace gen
open types

/-! ## Unions: codec, accessors and setters -/

/-- C6: for every union value `u` of either generated union type and every
float `val`, `u.SetB(val)` flattened by the reader and rebuilt by the builder
is a union with branch index 0 whose `B()` returns `(val, true)` and whose
`C()` reports absent; likewise `SetE`, `E()`, `F()`.  In particular for
`val = 3.14`. -/
theorem union_setB_reader_builder_roundtrip :
    (∀ (u : __unionOfBOfFloat64AndCOfString) (val : float64) (h : Heap),
      ∃ vals v h2 u2,
        readerFor__unionOfBOfFloat64AndCOfString (u.SetB val h).1.toValue = some vals ∧
        builderFor__unionOfBOfFloat64AndCOfString vals (u.SetB val h).2 = some (v, h2) ∧
        assertUnionBC v = some u2 ∧ u2.__unionIndex = 0 ∧
        u2.B = some (val, true) ∧ u2.C = some ("", false)) ∧
    (∀ (u : __unionOfEOfFloat64AndFOfString) (val : float64) (h : Heap),
      ∃ vals v h2 u2,
        readerFor__unionOfEOfFloat64AndFOfString (u.SetE val h).1.toValue = some vals ∧
        builderFor__unionOfEOfFloat64AndFOfString vals (u.SetE val h).2 = some (v, h2) ∧
        assertUnionEF v = some u2 ∧ u2.__unionIndex = 0 ∧
        u2.E = some (val, true) ∧ u2.F = some ("", false)) ∧
    (∀ (h : Heap), ∃ v h2 u2,
        readerFor__unionOfBOfFloat64AndCOfString
          ((New__unionOfBOfFloat64AndCOfString h).1.SetB float64.lit_3_14
            (New__unionOfBOfFloat64AndCOfString h).2).1.toValue =
          some [Value.UInt32 0, Value.Float64 float64.lit_3_14] ∧
        builderFor__unionOfBOfFloat64AndCOfString
          [Value.UInt32 0, Value.Float64 float64.lit_3_14]
          ((New__unionOfBOfFloat64AndCOfString h).1.SetB float64.lit_3_14
            (New__unionOfBOfFloat64AndCOfString h).2).2 = some (v, h2) ∧
        assertUnionBC v = some u2 ∧ u2.__unionIndex = 0 ∧
        u2.B = some (float64.lit_3_14, true) ∧ u2.C = some ("", false)) := by
  refine ⟨fun u val h => ?_, fun u val h => ?_, fun h => ?_⟩
  · exact ⟨[Value.UInt32 0, Value.Float64 val], _, _, _, rfl, rfl, rfl, rfl, rfl, rfl⟩
  · exact ⟨[Value.UInt32 0, Value.Float64 val], _, _, _, rfl, rfl, rfl, rfl, rfl, rfl⟩
  · exact ⟨_, _, _, rfl, rfl, rfl, rfl, rfl, rfl⟩

theorem applySetBC_append (ops : List SetBC) (op : SetBC) :
    ∀ (s : __unionOfBOfFloat64AndCOfString) (h : Heap),
      applySetBC (ops ++ [op]) s h =
        applySetBC [op] (applySetBC ops s h).1 (applySetBC ops s h).2 := by
  induction ops with
  | nil => intro s h; rfl
  | cons o ops ih =>
    intro s h
    cases o <;> simp [applySetBC, ih]

theorem applySetEF_append (ops : List SetEF) (op : SetEF) :
    ∀ (s : __unionOfEOfFloat64AndFOfString) (h : Heap),
      applySetEF (ops ++ [op]) s h =
        applySetEF [op] (applySetEF ops s h).1 (applySetEF ops s h).2 := by
  induction ops with
  | nil => intro s h; rfl
  | cons o ops ih =>
    intro s h
    cases o <;> simp [applySetEF, ih]

/-- C7: for every union value reached from `New__unionOfBOfFloat64AndCOfString()`
by a sequence of `SetB` / `SetC` calls, exactly one of `B()` and `C()` reports
`ok == true`: the branch of the most recent setter (B, holding 0, for a fresh
value), with the value that setter was given; the same for `E` / `F`. -/
theorem union_exactly_one_branch_inhabited :
    (∀ (ops : List SetBC) (h : Heap),
      match ops.getLast? with
      | none =>
        (applySetBC ops (New__unionOfBOfFloat64AndCOfString h).1
            (New__unionOfBOfFloat64AndCOfString h).2).1.B = some (float64.zero, true) ∧
        (applySetBC ops (New__unionOfBOfFloat64AndCOfString h).1
            (New__unionOfBOfFloat64AndCOfString h).2).1.C = some ("", false)
      | some (SetBC.SetB val) =>
        (applySetBC ops (New__unionOfBOfFloat64AndCOfString h).1
            (New__unionOfBOfFloat64AndCOfString h).2).1.B = some (val, true) ∧
        (applySetBC ops (New__unionOfBOfFloat64AndCOfString h).1
            (New__unionOfBOfFloat64AndCOfString h).2).1.C = some ("", false)
      | some (SetBC.SetC val) =>
        (applySetBC ops (New__unionOfBOfFloat64AndCOfString h).1
            (New__unionOfBOfFloat64AndCOfString h).2).1.B = some (float64.zero, false) ∧
        (applySetBC ops (New__unionOfBOfFloat64AndCOfString h).1
            (New__unionOfBOfFloat64AndCOfString h).2).1.C = some (val, true)) ∧
    (∀ (ops : List SetEF) (h : Heap),
      match ops.getLast? with
      | none =>
        (applySetEF ops (New__unionOfEOfFloat64AndFOfString h).1
            (New__unionOfEOfFloat64AndFOfString h).2).1.E = some (float64.zero, true) ∧
        (applySetEF ops (New__unionOfEOfFloat64AndFOfString h).1
            (New__unionOfEOfFloat64AndFOfString h).2).1.F = some ("", false)
      | some (SetEF.SetE val) =>
        (applySetEF ops (New__unionOfEOfFloat64AndFOfString h).1
            (New__unionOfEOfFloat64AndFOfString h).2).1.E = some (val, true) ∧
        (applySetEF ops (New__unionOfEOfFloat64AndFOfString h).1
            (New__unionOfEOfFloat64AndFOfString h).2).1.F = some ("", false)
      | some (SetEF.SetF val) =>
        (applySetEF ops (New__unionOfEOfFloat64AndFOfString h).1
            (New__unionOfEOfFloat64AndFOfString h).2).1.E = some (float64.zero, false) ∧
        (applySetEF ops (New__unionOfEOfFloat64AndFOfString h).1
            (New__unionOfEOfFloat64AndFOfString h).2).1.F = some (val, true)) := by
  constructor
  · intro ops h
    rcases List.eq_nil_or_concat ops with rfl | ⟨l, op, rfl⟩
    · exact ⟨rfl, rfl⟩
    · rw [List.concat_eq_append, List.getLast?_append, applySetBC_append]
      cases op <;> exact ⟨rfl, rfl⟩
  · intro ops h
    rcases List.eq_nil_or_concat ops with rfl | ⟨l, op, rfl⟩
    · exact ⟨rfl, rfl⟩
    · rw [List.concat_eq_append, List.getLast?_append, applySetEF_append]
      cases op <;> exact ⟨rfl, rfl⟩

/-! ## StructWithUnions: codec and setters -/

/-- C8: for every `StructWithUnions` `s`, the builder applied to the reader's
output has the same `A()` and `D()` as `s`; and for every list `[a, d]` of
values of the two union types, the reader applied to the builder's output is
`[a, d]`. -/
theorem structWithUnions_codec_roundtrip :
    (∀ (s : StructWithUnions) (h : Heap), ∃ vals v h1 s2,
      readerForStructWithUnions s.toValue = some vals ∧
      builderForStructWithUnions vals h = some (v, h1) ∧
      assertStructWithUnions v = some s2 ∧ s2.A = s.A ∧ s2.D = s.D) ∧
    (∀ (a : __unionOfBOfFloat64AndCOfString) (d : __unionOfEOfFloat64AndFOfString) (h : Heap),
      ∃ v h1,
        builderForStructWithUnions [a.toValue, d.toValue] h = some (v, h1) ∧
        readerForStructWithUnions v = some [a.toValue, d.toValue]) := by
  constructor
  · intro s h
    exact ⟨[s._a.toValue, s._d.toValue], _, _, _, rfl, rfl, rfl, rfl, rfl⟩
  · intro a d h
    exact ⟨_, _, rfl, rfl⟩

/-- C9: `s.SetA(val)` returns a value whose `A()` is `val` and whose `D()` is
`s.D()`; `s.SetD(val)` one whose `D()` is `val` and whose `A()` is `s.A()`.
The receiver is a copy, so `s` keeps its `A()` and `D()`; the only effect
besides the returned value is one newly allocated, empty hash cell. -/
theorem setters_touch_only_their_field (s : StructWithUnions)
    (a : __unionOfBOfFloat64AndCOfString) (d : __unionOfEOfFloat64AndFOfString) (h : Heap) :
    ((s.SetA a h).1.A = a ∧ (s.SetA a h).1.D = s.D ∧
      (s.SetA a h).2.cells = h.cells ++ [ref.Ref.zero]) ∧
    ((s.SetD d h).1.D = d ∧ (s.SetD d h).1.A = s.A ∧
      (s.SetD d h).2.cells = h.cells ++ [ref.Ref.zero]) :=
  ⟨⟨rfl, rfl, rfl⟩, ⟨rfl, rfl, rfl⟩⟩

end gen

namespace gen
open types

/-! ## StructWithUnions: `Ref` and `Equals` -/

theorem StructWithUnions.shareSafely_self (env : Env) (s : StructWithUnions) :
    StructWithUnions.shareSafely env s s = true := by
  simp [StructWithUnions.shareSafely]

theorem StructWithUnions.shareSafely_symm (env : Env) (s t : StructWithUnions)
    (h : StructWithUnions.shareSafely env s t = true) :
    StructWithUnions.shareSafely env t s = true := by
  simp only [StructWithUnions.shareSafely, Bool.or_eq_true, bne_iff_ne, beq_iff_eq, ne_eq] at h ⊢
  rcases h with h | h
  · exact Or.inl (fun e => h e.symm)
  · exact Or.inr h.symm

theorem StructWithUnions.cellAllocated_of_peekRef (env : Env) (h : Heap) (s : StructWithUnions)
    (r : ref.Ref) (hp : s.peekRef env h = some r) : s.cellAllocated h = true := by
  unfold StructWithUnions.peekRef at hp
  unfold StructWithUnions.cellAllocated
  cases hl : h.load s.ref with
  | none => rw [hl] at hp; simp at hp
  | some c => rfl

/-- With an allocated cell, `Ref()` returns the digest `peekRef` predicts and
leaves the digest of every struct that shares cells safely with `s` as it was. -/
theorem StructWithUnions.Ref_spec (env : Env) (h : Heap) (s : StructWithUnions)
    (hs : s.cellAllocated h = true) :
    ∃ r h1, s.Ref env h = some (r, h1) ∧ s.peekRef env h = some r ∧
      ∀ x : StructWithUnions, StructWithUnions.shareSafely env x s = true →
        x.peekRef env h1 = x.peekRef env h := by
  unfold StructWithUnions.cellAllocated Heap.load at hs
  cases hr : s.ref with
  | none => rw [hr] at hs; simp at hs
  | some a =>
    rw [hr] at hs
    cases hc : h.cells[a]? with
    | none => simp [hc] at hs
    | some c =>
      by_cases he : c.IsEmpty = true
      · refine ⟨env.getRef s.toValue, h.store a (env.getRef s.toValue), ?_, ?_, ?_⟩
        · simp [StructWithUnions.Ref, EnsureRef, hr, hc, he]
        · simp [StructWithUnions.peekRef, Heap.load, hr, hc, he]
        · intro x hx
          have ha : a < h.cells.length := by
            exact (List.getElem?_eq_some_iff.mp hc).1
          simp only [StructWithUnions.shareSafely, Bool.or_eq_true, bne_iff_ne, beq_iff_eq,
            ne_eq] at hx
          unfold StructWithUnions.peekRef Heap.load Heap.store
          cases hxr : x.ref with
          | none => rfl
          | some b =>
            by_cases hab : b = a
            · subst hab
              have hg : env.getRef x.toValue = env.getRef s.toValue := by
                rcases hx with hx | hx
                · exact absurd (hxr.trans hr.symm) hx
                · exact hx
              simp only [List.getElem?_set_self ha, hc]
              simp only [he, if_true, hg]
              split <;> rfl
            · have hne : a ≠ b := fun e => hab e.symm
              simp only [List.getElem?_set_ne hne]
      · refine ⟨c, h, ?_, ?_, fun x _ => rfl⟩
        · simp [StructWithUnions.Ref, EnsureRef, hr, hc, he]
        · simp [StructWithUnions.peekRef, Heap.load, hr, hc, he]

/-- With allocated cells shared safely, `s.Equals(t)` returns whether the two
digests agree and leaves the digest of every struct that shares cells safely
with `s` and `t` as it was. -/
theorem StructWithUnions.Equals_spec (env : Env) (h : Heap) (s t : StructWithUnions)
    (hs : s.cellAllocated h = true) (ht : t.cellAllocated h = true)
    (hst : StructWithUnions.shareSafely env s t = true) :
    ∃ rs rt h2, s.peekRef env h = some rs ∧ t.peekRef env h = some rt ∧
      s.Equals env t.toValue h = some (rs == rt, h2) ∧
      ∀ x : StructWithUnions, StructWithUnions.shareSafely env x s = true →
        StructWithUnions.shareSafely env x t = true →
        x.peekRef env h2 = x.peekRef env h := by
  obtain ⟨rs, h1, hRef, hpeek, hframe⟩ := StructWithUnions.Ref_spec env h s hs
  have hts := StructWithUnions.shareSafely_symm env s t hst
  obtain ⟨rt0, hrt0⟩ : ∃ r, t.peekRef env h = some r := by
    obtain ⟨r, _, _, hp, _⟩ := StructWithUnions.Ref_spec env h t ht
    exact ⟨r, hp⟩
  have ht1 : t.cellAllocated h1 = true :=
    StructWithUnions.cellAllocated_of_peekRef env h1 t rt0 ((hframe t hts).trans hrt0)
  obtain ⟨rt, h2, hRef2, hpeek2, hframe2⟩ := StructWithUnions.Ref_spec env h1 t ht1
  have hrt : rt = rt0 := by
    have := (hframe t hts).symm.trans hpeek2
    rw [hrt0] at this
    exact (Option.some.inj this).symm
  subst hrt
  refine ⟨rs, rt, h2, hpeek, hrt0, ?_, ?_⟩
  · have hv : valueRef env t.toValue h1 = t.Ref env h1 := rfl
    have hty : valueType env t.toValue = some (__typeRefForStructWithUnions env) := rfl
    have hnil : t.toValue ≠ Value.nil := by simp [StructWithUnions.toValue]
    simp only [StructWithUnions.Equals, hnil, if_false, hty, TypeRef.Equals, beq_self_eq_true,
      Bool.not_true, hRef, hv, hRef2]
    rfl
  · intro x hxs hxt
    exact (hframe2 x hxt).trans (hframe x hxs)

/-- Without a precondition: `s.Equals(other)` returns true exactly when `other`
is non-nil, its type is the StructWithUnions type, and `s.Ref()` followed by
`other.Ref()` return the same digest. -/
theorem StructWithUnions.Equals_true_iff (env : Env) (h : Heap) (s : StructWithUnions)
    (other : Value) :
    (∃ h2, s.Equals env other h = some (true, h2)) ↔
      other ≠ Value.nil ∧
      (∃ ty, valueType env other = some ty ∧ (__typeRefForStructWithUnions env).Equals ty = true) ∧
      ∃ r h1 h2, s.Ref env h = some (r, h1) ∧ valueRef env other h1 = some (r, h2) := by
  by_cases hnil : other = Value.nil
  · subst hnil
    have hE : s.Equals env Value.nil h = some (false, h) := by
      simp [StructWithUnions.Equals]
    simp [hE]
  · cases hty : valueType env other with
    | none =>
      have hE : s.Equals env other h = none := by
        simp [StructWithUnions.Equals, hnil, hty]
      simp [hE]
    | some ty =>
      by_cases hte : (__typeRefForStructWithUnions env).Equals ty = true
      · cases hr : s.Ref env h with
        | none =>
          have hE : s.Equals env other h = none := by
            simp [StructWithUnions.Equals, hnil, hty, hte, hr]
          simp [hE]
        | some p =>
          obtain ⟨r1, h1⟩ := p
          cases hr2 : valueRef env other h1 with
          | none =>
            have hE : s.Equals env other h = none := by
              simp [StructWithUnions.Equals, hnil, hty, hte, hr, hr2]
            simp [hE, hr2]
          | some q =>
            obtain ⟨r2, h2⟩ := q
            have hE : s.Equals env other h = some (r1 == r2, h2) := by
              simp [StructWithUnions.Equals, hnil, hty, hte, hr, hr2]
            rw [hE]
            constructor
            · rintro ⟨h2', hh⟩
              simp only [Option.some.injEq, Prod.mk.injEq, beq_iff_eq] at hh
              obtain ⟨hh1, -⟩ := hh
              subst hh1
              exact ⟨hnil, ⟨ty, rfl, hte⟩, r1, h1, h2, rfl, hr2⟩
            · rintro ⟨-, -, r, h1', h2', he1, he2⟩
              simp only [Option.some.injEq, Prod.mk.injEq] at he1
              obtain ⟨hr1, hh1⟩ := he1
              subst hr1
              subst hh1
              rw [hr2] at he2
              simp only [Option.some.injEq, Prod.mk.injEq] at he2
              exact ⟨h2, by simp [he2.1]⟩
      · have hE : s.Equals env other h = some (false, h) := by
          simp [StructWithUnions.Equals, hnil, hty, hte]
        simp [hE, hte]

theorem StructWithUnions.peekRef_isSome (env : Env) (h : Heap) (s : StructWithUnions)
    (hs : s.cellAllocated h = true) : ∃ r, s.peekRef env h = some r := by
  obtain ⟨r, _, _, hp, _⟩ := StructWithUnions.Ref_spec env h s hs
  exact ⟨r, hp⟩

/-- The flag `s.Equals(t)` returns, in terms of the digests before the call. -/
theorem StructWithUnions.Equals_eval (env : Env) (h : Heap) (s t : StructWithUnions)
    (hs : s.cellAllocated h = true) (ht : t.cellAllocated h = true)
    (hst : StructWithUnions.shareSafely env s t = true) :
    ∃ h2, s.Equals env t.toValue h = some (decide (s.peekRef env h = t.peekRef env h), h2) ∧
      ∀ x : StructWithUnions, StructWithUnions.shareSafely env x s = true →
        StructWithUnions.shareSafely env x t = true →
        x.peekRef env h2 = x.peekRef env h ∧
          (x.cellAllocated h = true → x.cellAllocated h2 = true) := by
  obtain ⟨rs, rt, h2, hps, hpt, hE, hframe⟩ := StructWithUnions.Equals_spec env h s t hs ht hst
  refine ⟨h2, ?_, ?_⟩
  · rw [hE, hps, hpt]
    simp [beq_eq_decide]
  · intro x hxs hxt
    refine ⟨hframe x hxs hxt, fun hx => ?_⟩
    obtain ⟨r, hr⟩ := StructWithUnions.peekRef_isSome env h x hx
    exact StructWithUnions.cellAllocated_of_peekRef env h2 x r ((hframe x hxs hxt).trans hr)

/-- A pointer returned by an allocation is not the pointer of any cell
allocated before, so a struct holding it shares no cell with older structs. -/
theorem StructWithUnions.shareSafely_of_new_cell (env : Env) (h : Heap)
    (s x : StructWithUnions) (hs : s.ref = h.alloc.1) (hx : x.cellAllocated h = true) :
    StructWithUnions.shareSafely env s x = true := by
  simp only [StructWithUnions.shareSafely, Bool.or_eq_true, bne_iff_ne, beq_iff_eq, ne_eq]
  left
  intro e
  unfold StructWithUnions.cellAllocated Heap.load at hx
  rw [← e, hs] at hx
  simp [Heap.alloc] at hx

theorem StructWithUnions.cellAllocated_alloc (h : Heap) (x : StructWithUnions)
    (hx : x.cellAllocated h = true) : x.cellAllocated h.alloc.2 = true := by
  unfold StructWithUnions.cellAllocated Heap.load at hx ⊢
  cases hr : x.ref with
  | none => rw [hr] at hx; simp at hx
  | some a =>
    rw [hr] at hx
    simp only [Option.isSome_iff_exists] at hx
    obtain ⟨c, hc⟩ := hx
    have ha : a < h.cells.length := (List.getElem?_eq_some_iff.mp hc).1
    simp [Heap.alloc, List.getElem?_append_left ha, hc]

/-- The structs that `NewStructWithUnions`, `Def.New`, `SetA`, `SetD` and the
builder return have an allocated hash cell that no struct allocated before
the call points to. -/
theorem StructWithUnions.results_have_new_cell (env : Env) (h : Heap)
    (x : StructWithUnions) (hx : x.cellAllocated h = true) :
    ((NewStructWithUnions h).1.cellAllocated (NewStructWithUnions h).2 = true ∧
      StructWithUnions.shareSafely env (NewStructWithUnions h).1 x = true) ∧
    (∀ d : StructWithUnionsDef, (d.New h).1.cellAllocated (d.New h).2 = true ∧
      StructWithUnions.shareSafely env (d.New h).1 x = true) ∧
    (∀ (s : StructWithUnions) (a : __unionOfBOfFloat64AndCOfString),
      (s.SetA a h).1.cellAllocated (s.SetA a h).2 = true ∧
      StructWithUnions.shareSafely env (s.SetA a h).1 x = true) ∧
    (∀ (s : StructWithUnions) (d : __unionOfEOfFloat64AndFOfString),
      (s.SetD d h).1.cellAllocated (s.SetD d h).2 = true ∧
      StructWithUnions.shareSafely env (s.SetD d h).1 x = true) ∧
    (∀ (a : __unionOfBOfFloat64AndCOfString) (d : __unionOfEOfFloat64AndFOfString),
      ∃ s h1, builderForStructWithUnions [a.toValue, d.toValue] h = some (s.toValue, h1) ∧
        s.cellAllocated h1 = true ∧ StructWithUnions.shareSafely env s x = true) := by
  have hx1 := StructWithUnions.cellAllocated_alloc h x hx
  have hx2 := StructWithUnions.cellAllocated_alloc _ x hx1
  have halloc : ∀ g : Heap, g.alloc.2.load g.alloc.1 = some ref.Ref.zero := by
    intro g
    simp [Heap.alloc, Heap.load]
  refine ⟨⟨?_, ?_⟩, fun d => ⟨?_, ?_⟩, fun s a => ⟨?_, ?_⟩, fun s d => ⟨?_, ?_⟩, fun a d => ?_⟩
  · simp [StructWithUnions.cellAllocated, NewStructWithUnions, halloc]
  · exact StructWithUnions.shareSafely_of_new_cell env h.alloc.2.alloc.2 _ x rfl hx2
  · simp [StructWithUnions.cellAllocated, StructWithUnionsDef.New, halloc]
  · exact StructWithUnions.shareSafely_of_new_cell env h.alloc.2.alloc.2 _ x rfl hx2
  · simp [StructWithUnions.cellAllocated, StructWithUnions.SetA, halloc]
  · exact StructWithUnions.shareSafely_of_new_cell env h _ x rfl hx
  · simp [StructWithUnions.cellAllocated, StructWithUnions.SetD, halloc]
  · exact StructWithUnions.shareSafely_of_new_cell env h _ x rfl hx
  · refine ⟨{ _a := a, _d := d, ref := h.alloc.1 }, h.alloc.2, rfl, ?_, ?_⟩
    · simp [StructWithUnions.cellAllocated, halloc]
    · exact StructWithUnions.shareSafely_of_new_cell env h _ x rfl hx

/-- C10, amended: for every StructWithUnions `s0` and value `other`,
`s0.Equals(other)` returns true iff `other` is non-nil, its type is the
StructWithUnions type and `s0.Ref()` and `other.Ref()` return the same hash;
on StructWithUnions values whose hash cells are allocated and shared only
between structs with the same hash, `Equals` returns and is reflexive,
symmetric and transitive (from one heap, and in consecutive calls). -/
theorem structWithUnions_equals_is_equivalence (env : Env) (h : Heap)
    (s t u : StructWithUnions)
    (hs : s.cellAllocated h = true) (ht : t.cellAllocated h = true)
    (hu : u.cellAllocated h = true)
    (hst : StructWithUnions.shareSafely env s t = true)
    (htu : StructWithUnions.shareSafely env t u = true)
    (hsu : StructWithUnions.shareSafely env s u = true) :
    (∀ (s0 : StructWithUnions) (h0 : Heap) (other : Value),
      (∃ h2, s0.Equals env other h0 = some (true, h2)) ↔
        other ≠ Value.nil ∧
        (∃ ty, valueType env other = some ty ∧
          (__typeRefForStructWithUnions env).Equals ty = true) ∧
        ∃ r h1 h2, s0.Ref env h0 = some (r, h1) ∧ valueRef env other h1 = some (r, h2)) ∧
    (∃ h1, s.Equals env s.toValue h = some (true, h1)) ∧
    (∃ b h1, s.Equals env t.toValue h = some (b, h1) ∧
      (∃ h2, t.Equals env s.toValue h = some (b, h2)) ∧
      (∃ h2, t.Equals env s.toValue h1 = some (b, h2))) ∧
    (∀ h1 h2, s.Equals env t.toValue h = some (true, h1) →
      t.Equals env u.toValue h = some (true, h2) →
      ∃ h3, s.Equals env u.toValue h = some (true, h3)) ∧
    (∀ h1 h2, s.Equals env t.toValue h = some (true, h1) →
      t.Equals env u.toValue h1 = some (true, h2) →
      ∃ h3, s.Equals env u.toValue h2 = some (true, h3)) := by
  have hss := StructWithUnions.shareSafely_self env s
  have htt := StructWithUnions.shareSafely_self env t
  have huu := StructWithUnions.shareSafely_self env u
  have hts := StructWithUnions.shareSafely_symm env s t hst
  have hut := StructWithUnions.shareSafely_symm env t u htu
  have hus := StructWithUnions.shareSafely_symm env s u hsu
  obtain ⟨hss1, hEss, -⟩ := StructWithUnions.Equals_eval env h s s hs hs hss
  obtain ⟨hst1, hEst, hFst⟩ := StructWithUnions.Equals_eval env h s t hs ht hst
  obtain ⟨hts1, hEts, -⟩ := StructWithUnions.Equals_eval env h t s ht hs hts
  obtain ⟨htu1, hEtu, -⟩ := StructWithUnions.Equals_eval env h t u ht hu htu
  obtain ⟨hsu1, hEsu, -⟩ := StructWithUnions.Equals_eval env h s u hs hu hsu
  refine ⟨fun s0 h0 other => StructWithUnions.Equals_true_iff env h0 s0 other, ?_, ?_, ?_, ?_⟩
  · exact ⟨hss1, by simpa using hEss⟩
  · refine ⟨_, hst1, hEst, ⟨hts1, ?_⟩, ?_⟩
    · rw [hEts]
      simp only [Option.some.injEq, Prod.mk.injEq, and_true, decide_eq_decide]
      exact eq_comm
    · obtain ⟨h3, hE3, -⟩ := StructWithUnions.Equals_eval env hst1 t s
        ((hFst t hts htt).2 ht) ((hFst s hss hst).2 hs) hts
      refine ⟨h3, ?_⟩
      rw [hE3, (hFst t hts htt).1, (hFst s hss hst).1]
      simp only [Option.some.injEq, Prod.mk.injEq, and_true, decide_eq_decide]
      exact eq_comm
  · intro h1 h2 e1 e2
    rw [hEst] at e1
    rw [hEtu] at e2
    simp only [Option.some.injEq, Prod.mk.injEq, decide_eq_true_eq] at e1 e2
    exact ⟨hsu1, by rw [hEsu, e1.1, e2.1]; simp⟩
  · intro h1 h2 e1 e2
    rw [hEst] at e1
    simp only [Option.some.injEq, Prod.mk.injEq, decide_eq_true_eq] at e1
    obtain ⟨e1, rfl⟩ := e1
    obtain ⟨h2a, hE2, hF2⟩ := StructWithUnions.Equals_eval env hst1 t u
      ((hFst t hts htt).2 ht) ((hFst u hus hut).2 hu) htu
    rw [hE2] at e2
    simp only [Option.some.injEq, Prod.mk.injEq, decide_eq_true_eq] at e2
    obtain ⟨e2, rfl⟩ := e2
    obtain ⟨h3, hE3, -⟩ := StructWithUnions.Equals_eval env h2a s u
      ((hF2 s hst hsu).2 ((hFst s hss hst).2 hs)) ((hF2 u hut huu).2 ((hFst u hus hut).2 hu)) hsu
    refine ⟨h3, ?_⟩
    rw [hE3, (hF2 s hst hsu).1, (hF2 u hut huu).1, (hFst s hss hst).1, (hFst u hus hut).1]
    rw [(hFst t hts htt).1, (hFst u hus hut).1] at e2
    rw [e1, e2]
    simp

/-- Witness for C10: three structs built by `NewStructWithUnions` and `SetA`
meet the hypotheses, and `Equals` is reflexive and transitive on them. -/
theorem structWithUnions_equals_is_equivalence_witness :
    (sampleS.1.cellAllocated sampleU.2 = true ∧ sampleT.1.cellAllocated sampleU.2 = true ∧
      sampleU.1.cellAllocated sampleU.2 = true ∧
      StructWithUnions.shareSafely sampleEnv sampleS.1 sampleT.1 = true ∧
      StructWithUnions.shareSafely sampleEnv sampleT.1 sampleU.1 = true ∧
      StructWithUnions.shareSafely sampleEnv sampleS.1 sampleU.1 = true) ∧
    (∃ h1, sampleS.1.Equals sampleEnv sampleS.1.toValue sampleU.2 = some (true, h1)) ∧
    (∀ h1 h2, sampleS.1.Equals sampleEnv sampleT.1.toValue sampleU.2 = some (true, h1) →
      sampleT.1.Equals sampleEnv sampleU.1.toValue h1 = some (true, h2) →
      ∃ h3, sampleS.1.Equals sampleEnv sampleU.1.toValue h2 = some (true, h3)) :=
  ⟨by decide,
    (structWithUnions_equals_is_equivalence sampleEnv sampleU.2 sampleS.1 sampleT.1 sampleU.1
      (by decide) (by decide) (by decide) (by decide) (by decide) (by decide)).2.1,
    (structWithUnions_equals_is_equivalence sampleEnv sampleU.2 sampleS.1 sampleT.1 sampleU.1
      (by decide) (by decide) (by decide) (by decide) (by decide) (by decide)).2.2.2.2⟩

/-- C10, as stated for every StructWithUnions, fails at the zero value
`StructWithUnions{}`: compared with itself, `other` is non-nil and of the
StructWithUnions type, but `Ref()` reads a nil cell and `Equals` does not
return true. -/
theorem structWithUnions_equals_zero_value_not_reflexive :
    StructWithUnions.zeroValue.toValue ≠ Value.nil ∧
    valueType sampleEnv StructWithUnions.zeroValue.toValue =
      some (__typeRefForStructWithUnions sampleEnv) ∧
    StructWithUnions.zeroValue.Equals sampleEnv StructWithUnions.zeroValue.toValue
      { cells := [] } = none ∧
    ¬ ∃ h1, StructWithUnions.zeroValue.Equals sampleEnv StructWithUnions.zeroValue.toValue
      { cells := [] } = some (true, h1) := by
  refine ⟨by decide, rfl, rfl, ?_⟩
  rintro ⟨h1, hh⟩
  have hnone : StructWithUnions.zeroValue.Equals sampleEnv StructWithUnions.zeroValue.toValue
      { cells := [] } = none := rfl
  rw [hnone] at hh
  exact Option.noConfusion hh

end gen

namespace types

/-! ## Rolling value hasher: the chunking parameters are fixed at construction -/

theorem HasherCall.run_params {I : Imports} (c : HasherCall)
    (st : ChunkGlobals × rollingValueHasher I) :
    (c.run st).2.pattern = st.2.pattern ∧ (c.run st).2.window = st.2.window ∧
      (c.run st).2.salt = st.2.salt := by
  obtain ⟨g, rv⟩ := st
  cases c with
  | HashByte b =>
    cases h : rv.crossedBoundary
    · simp [HasherCall.run, rollingValueHasher.HashByte_of_not_crossed rv b h]
    · simp [HasherCall.run, rollingValueHasher.HashByte_of_crossed rv b h]
  | Reset => exact ⟨rfl, rfl, rfl⟩
  | smallTestChunks => exact ⟨rfl, rfl, rfl⟩
  | normalProductionChunks => exact ⟨rfl, rfl, rfl⟩

theorem runCalls_params {I : Imports} (calls : List HasherCall) :
    ∀ st : ChunkGlobals × rollingValueHasher I,
      (runCalls calls st).2.pattern = st.2.pattern ∧
      (runCalls calls st).2.window = st.2.window ∧
      (runCalls calls st).2.salt = st.2.salt := by
  induction calls with
  | nil => intro st; exact ⟨rfl, rfl, rfl⟩
  | cons c calls ih =>
    intro st
    obtain ⟨h1, h2, h3⟩ := ih (c.run st)
    obtain ⟨k1, k2, k3⟩ := HasherCall.run_params c st
    simp only [runCalls, List.foldl_cons] at h1 h2 h3 ⊢
    exact ⟨h1.trans k1, h2.trans k2, h3.trans k3⟩

/-- C12: the pattern and window of a hasher are the values `chunkingConfig`
returned when `newRollingValueHasher` ran; pattern, window and salt are left
unchanged by `HashByte`, by `Reset` (which rebuilds the rolling hash with the
stored window) and by later calls of `smallTestChunks` or
`normalProductionChunks`, in any sequence. -/
theorem chunking_parameters_fixed_at_construction (I : Imports) (g : ChunkGlobals)
    (salt : Nat) :
    ((newRollingValueHasher I g salt).pattern = (chunkingConfig g).1 ∧
      (newRollingValueHasher I g salt).window = (chunkingConfig g).2 ∧
      (newRollingValueHasher I g salt).salt = salt) ∧
    (∀ calls : List HasherCall,
      (runCalls calls (g, newRollingValueHasher I g salt)).2.pattern = (chunkingConfig g).1 ∧
      (runCalls calls (g, newRollingValueHasher I g salt)).2.window = (chunkingConfig g).2 ∧
      (runCalls calls (g, newRollingValueHasher I g salt)).2.salt = salt) ∧
    (∀ (rv : rollingValueHasher I) (b : Nat),
      (rv.HashByte b).1.pattern = rv.pattern ∧ (rv.HashByte b).1.window = rv.window ∧
      (rv.HashByte b).1.salt = rv.salt) ∧
    (∀ rv : rollingValueHasher I,
      rv.Reset.pattern = rv.pattern ∧ rv.Reset.window = rv.window ∧
      rv.Reset.salt = rv.salt ∧ rv.Reset.bz = I.NewBuzHash rv.window) ∧
    (∀ (g1 : ChunkGlobals) (rv : rollingValueHasher I),
      (HasherCall.smallTestChunks.run (g1, rv)) = (smallTestChunks g1, rv) ∧
      (HasherCall.normalProductionChunks.run (g1, rv)) = (normalProductionChunks g1, rv)) := by
  refine ⟨⟨rfl, rfl, rfl⟩, fun calls => ?_, fun rv b => ?_, fun rv => ⟨rfl, rfl, rfl, rfl⟩,
    fun g1 rv => ⟨rfl, rfl⟩⟩
  · exact runCalls_params calls (g, newRollingValueHasher I g salt)
  · exact HasherCall.run_params (HasherCall.HashByte b) (g, rv)

end types

namespace gen
open types

/-! ## Hash cells under the setters -/

/-- A newly allocated cell is empty, is no cell allocated before, and leaves
the cells allocated before as they were. -/
theorem freshCacheAfter_alloc (env : Env) (h : Heap) (r : RefPtr) (v1 : Value)
    (hr : (h.load r).isSome = true) :
    freshCacheAfter env h r h.alloc.2 h.alloc.1 v1 := by
  have hnew : h.alloc.2.load h.alloc.1 = some ref.Ref.zero := by
    simp [Heap.alloc, Heap.load]
  have hold : h.load h.alloc.1 = none := by
    simp [Heap.alloc, Heap.load]
  refine ⟨hold, hnew, ?_, ?_, ?_⟩
  · intro e
    rw [← e, hold] at hr
    simp at hr
  · cases r with
    | none => rfl
    | some a =>
      simp only [Heap.load, Option.isSome_iff_exists] at hr
      obtain ⟨c, hc⟩ := hr
      have ha : a < h.cells.length := (List.getElem?_eq_some_iff.mp hc).1
      simp [Heap.alloc, Heap.load, List.getElem?_append_left ha]
  · refine ⟨h.alloc.2.store h.cells.length (env.getRef v1), ?_⟩
    simp [EnsureRef, Heap.alloc, ref.Ref.IsEmpty]

theorem isSome_load_of_cacheCoherent (env : Env) (h : Heap) (r : RefPtr) (v : Value)
    (hc : cacheCoherent env h r v = true) : (h.load r).isSome = true := by
  unfold cacheCoherent at hc
  cases hl : h.load r with
  | none => rw [hl] at hc; simp at hc
  | some c => rfl

theorem cacheCoherent_of_load_eq (env : Env) (h h1 : Heap) (r : RefPtr) (v : Value)
    (hl : h1.load r = h.load r) (hc : cacheCoherent env h r v = true) :
    cacheCoherent env h1 r v = true := by
  unfold cacheCoherent at hc ⊢
  rw [hl]
  exact hc

/-- C13: every setter (`SetA`, `SetD`, `SetB`, `SetC`, `SetE`, `SetF`), called
on a value whose hash cell is empty or holds the hash of its fields, returns a
value whose hash cell is new and empty, so that its `Ref()` is the hash of the
new fields; the receiver's cell is not the result's and holds what it held. -/
theorem setters_return_new_empty_cache (env : Env) (h : Heap) (s : StructWithUnions)
    (u : __unionOfBOfFloat64AndCOfString) (w : __unionOfEOfFloat64AndFOfString)
    (hs : cacheCoherent env h s.ref s.toValue = true)
    (hu : cacheCoherent env h u.ref u.toValue = true)
    (hw : cacheCoherent env h w.ref w.toValue = true) :
    (∀ a : __unionOfBOfFloat64AndCOfString,
      freshCacheAfter env h s.ref (s.SetA a h).2 (s.SetA a h).1.ref (s.SetA a h).1.toValue ∧
      (s.SetA a h).1.Ref env (s.SetA a h).2 =
        some (env.getRef (s.SetA a h).1.toValue,
          (s.SetA a h).2.store h.cells.length (env.getRef (s.SetA a h).1.toValue)) ∧
      cacheCoherent env (s.SetA a h).2 s.ref s.toValue = true) ∧
    (∀ d : __unionOfEOfFloat64AndFOfString,
      freshCacheAfter env h s.ref (s.SetD d h).2 (s.SetD d h).1.ref (s.SetD d h).1.toValue ∧
      (s.SetD d h).1.Ref env (s.SetD d h).2 =
        some (env.getRef (s.SetD d h).1.toValue,
          (s.SetD d h).2.store h.cells.length (env.getRef (s.SetD d h).1.toValue)) ∧
      cacheCoherent env (s.SetD d h).2 s.ref s.toValue = true) ∧
    (∀ val : float64,
      freshCacheAfter env h u.ref (u.SetB val h).2 (u.SetB val h).1.ref (u.SetB val h).1.toValue ∧
      (u.SetB val h).1.Ref env (u.SetB val h).2 =
        some (env.getRef (u.SetB val h).1.toValue,
          (u.SetB val h).2.store h.cells.length (env.getRef (u.SetB val h).1.toValue)) ∧
      cacheCoherent env (u.SetB val h).2 u.ref u.toValue = true) ∧
    (∀ val : String,
      freshCacheAfter env h u.ref (u.SetC val h).2 (u.SetC val h).1.ref (u.SetC val h).1.toValue ∧
      (u.SetC val h).1.Ref env (u.SetC val h).2 =
        some (env.getRef (u.SetC val h).1.toValue,
          (u.SetC val h).2.store h.cells.length (env.getRef (u.SetC val h).1.toValue)) ∧
      cacheCoherent env (u.SetC val h).2 u.ref u.toValue = true) ∧
    (∀ val : float64,
      freshCacheAfter env h w.ref (w.SetE val h).2 (w.SetE val h).1.ref (w.SetE val h).1.toValue ∧
      (w.SetE val h).1.Ref env (w.SetE val h).2 =
        some (env.getRef (w.SetE val h).1.toValue,
          (w.SetE val h).2.store h.cells.length (env.getRef (w.SetE val h).1.toValue)) ∧
      cacheCoherent env (w.SetE val h).2 w.ref w.toValue = true) ∧
    (∀ val : String,
      freshCacheAfter env h w.ref (w.SetF val h).2 (w.SetF val h).1.ref (w.SetF val h).1.toValue ∧
      (w.SetF val h).1.Ref env (w.SetF val h).2 =
        some (env.getRef (w.SetF val h).1.toValue,
          (w.SetF val h).2.store h.cells.length (env.getRef (w.SetF val h).1.toValue)) ∧
      cacheCoherent env (w.SetF val h).2 w.ref w.toValue = true) := by
  have hs1 := isSome_load_of_cacheCoherent env h s.ref s.toValue hs
  have hu1 := isSome_load_of_cacheCoherent env h u.ref u.toValue hu
  have hw1 := isSome_load_of_cacheCoherent env h w.ref w.toValue hw
  have hRef : ∀ v : Value, EnsureRef env h.alloc.1 v h.alloc.2 =
      some (env.getRef v, h.alloc.2.store h.cells.length (env.getRef v)) := by
    intro v
    simp [EnsureRef, Heap.alloc, ref.Ref.IsEmpty]
  refine ⟨fun a => ?_, fun d => ?_, fun val => ?_, fun val => ?_, fun val => ?_, fun val => ?_⟩
  · have hf := freshCacheAfter_alloc env h s.ref (s.SetA a h).1.toValue hs1
    exact ⟨hf, hRef _, cacheCoherent_of_load_eq env h _ s.ref s.toValue hf.2.2.2.1 hs⟩
  · have hf := freshCacheAfter_alloc env h s.ref (s.SetD d h).1.toValue hs1
    exact ⟨hf, hRef _, cacheCoherent_of_load_eq env h _ s.ref s.toValue hf.2.2.2.1 hs⟩
  · have hf := freshCacheAfter_alloc env h u.ref (u.SetB val h).1.toValue hu1
    exact ⟨hf, hRef _, cacheCoherent_of_load_eq env h _ u.ref u.toValue hf.2.2.2.1 hu⟩
  · have hf := freshCacheAfter_alloc env h u.ref (u.SetC val h).1.toValue hu1
    exact ⟨hf, hRef _, cacheCoherent_of_load_eq env h _ u.ref u.toValue hf.2.2.2.1 hu⟩
  · have hf := freshCacheAfter_alloc env h w.ref (w.SetE val h).1.toValue hw1
    exact ⟨hf, hRef _, cacheCoherent_of_load_eq env h _ w.ref w.toValue hf.2.2.2.1 hw⟩
  · have hf := freshCacheAfter_alloc env h w.ref (w.SetF val h).1.toValue hw1
    exact ⟨hf, hRef _, cacheCoherent_of_load_eq env h _ w.ref w.toValue hf.2.2.2.1 hw⟩

/-- Witness for C13: the struct built by `NewStructWithUnions` and its two
unions have coherent cells; `SetA` on the struct returns a struct with a new,
empty cell, and the struct's own cell stays coherent. -/
theorem setters_return_new_empty_cache_witness :
    (cacheCoherent sampleEnv sampleU.2 sampleS.1.ref sampleS.1.toValue = true ∧
      cacheCoherent sampleEnv sampleU.2 sampleS.1.A.ref sampleS.1.A.toValue = true ∧
      cacheCoherent sampleEnv sampleU.2 sampleS.1.D.ref sampleS.1.D.toValue = true) ∧
    (∀ a : __unionOfBOfFloat64AndCOfString,
      freshCacheAfter sampleEnv sampleU.2 sampleS.1.ref (sampleS.1.SetA a sampleU.2).2
        (sampleS.1.SetA a sampleU.2).1.ref (sampleS.1.SetA a sampleU.2).1.toValue ∧
      (sampleS.1.SetA a sampleU.2).1.Ref sampleEnv (sampleS.1.SetA a sampleU.2).2 =
        some (sampleEnv.getRef (sampleS.1.SetA a sampleU.2).1.toValue,
          (sampleS.1.SetA a sampleU.2).2.store sampleU.2.cells.length
            (sampleEnv.getRef (sampleS.1.SetA a sampleU.2).1.toValue)) ∧
      cacheCoherent sampleEnv (sampleS.1.SetA a sampleU.2).2 sampleS.1.ref
        sampleS.1.toValue = true) :=
  ⟨by decide,
    (setters_return_new_empty_cache sampleEnv sampleU.2 sampleS.1 sampleS.1.A sampleS.1.D
      (by decide) (by decide) (by decide)).1⟩

end gen

namespace gen
open types

/-! ## Branch index and stored value agree on the values a client obtains -/

theorem branchAgrees_zero_float (f : float64) : branchAgrees 0 (Value.Float64 f) = true := rfl

theorem branchAgrees_one_string (s : String) : branchAgrees 1 (NewString s) = true := rfl

/-- When index and value agree, both accessors find the type they assert. -/
theorem accessors_of_branchAgrees (index : Nat) (value : Value)
    (h : branchAgrees index value = true) :
    ((if index != 0 then some (float64.zero, false)
      else match assertFloat64 value with
        | none => none
        | some f => some (f, true)) : Option (float64 × Bool)).isSome = true ∧
    ((if index != 1 then some ("", false)
      else match assertString value with
        | none => none
        | some str => some (str, true)) : Option (String × Bool)).isSome = true := by
  simp only [branchAgrees, Bool.or_eq_true, Bool.and_eq_true, beq_iff_eq,
    Option.isSome_iff_exists] at h
  rcases h with ⟨rfl, f, hf⟩ | ⟨rfl, s, hs⟩
  · simp [hf]
  · simp [hs]

theorem accessorsReturn_of_branchesAgree (x : ApiValue) (h : x.branchesAgree = true) :
    x.accessorsReturn = true := by
  cases x with
  | unionBC u =>
    have := accessors_of_branchAgrees u.__unionIndex u.__unionValue h
    simpa [ApiValue.accessorsReturn, __unionOfBOfFloat64AndCOfString.B,
      __unionOfBOfFloat64AndCOfString.C] using this
  | unionBCDef d =>
    have := accessors_of_branchAgrees d.__unionIndex d.__unionValue h
    simpa [ApiValue.accessorsReturn, __unionOfBOfFloat64AndCOfStringDef.B,
      __unionOfBOfFloat64AndCOfStringDef.C] using this
  | unionEF u =>
    have := accessors_of_branchAgrees u.__unionIndex u.__unionValue h
    simpa [ApiValue.accessorsReturn, __unionOfEOfFloat64AndFOfString.E,
      __unionOfEOfFloat64AndFOfString.F] using this
  | unionEFDef d =>
    have := accessors_of_branchAgrees d.__unionIndex d.__unionValue h
    simpa [ApiValue.accessorsReturn, __unionOfEOfFloat64AndFOfStringDef.E,
      __unionOfEOfFloat64AndFOfStringDef.F] using this
  | struct s =>
    simp only [ApiValue.branchesAgree, Bool.and_eq_true] at h
    have h1 := accessors_of_branchAgrees s._a.__unionIndex s._a.__unionValue h.1
    have h2 := accessors_of_branchAgrees s._d.__unionIndex s._d.__unionValue h.2
    simp only [ApiValue.accessorsReturn, StructWithUnions.A, StructWithUnions.D,
      __unionOfBOfFloat64AndCOfString.B, __unionOfBOfFloat64AndCOfString.C,
      __unionOfEOfFloat64AndFOfString.E, __unionOfEOfFloat64AndFOfString.F, Bool.and_eq_true]
    exact ⟨⟨⟨h1.1, h1.2⟩, h2.1⟩, h2.2⟩
  | structDef d =>
    simp only [ApiValue.branchesAgree, Bool.and_eq_true] at h
    have h1 := accessors_of_branchAgrees d.A.__unionIndex d.A.__unionValue h.1
    have h2 := accessors_of_branchAgrees d.D.__unionIndex d.D.__unionValue h.2
    simp only [ApiValue.accessorsReturn,
      __unionOfBOfFloat64AndCOfStringDef.B, __unionOfBOfFloat64AndCOfStringDef.C,
      __unionOfEOfFloat64AndFOfStringDef.E, __unionOfEOfFloat64AndFOfStringDef.F,
      Bool.and_eq_true]
    exact ⟨⟨⟨h1.1, h1.2⟩, h2.1⟩, h2.2⟩

theorem branchesAgree_of_obtainable (x : ApiValue) (hx : Obtainable x) :
    x.branchesAgree = true := by
  induction hx with
  | newBC h => rfl
  | newEF h => rfl
  | newStruct h => rfl
  | setB u val h => rfl
  | setC u val h => rfl
  | setE u val h => rfl
  | setF u val h => rfl
  | defSetB d val => rfl
  | defSetC d val => rfl
  | defSetE d val => rfl
  | defSetF d val => rfl
  | defOfBC u _ ih => exact ih
  | defOfEF u _ ih => exact ih
  | defOfStruct s _ ih => exact ih
  | newOfBCDef d h _ ih => exact ih
  | newOfEFDef d h _ ih => exact ih
  | newOfStructDef d h _ ih => exact ih
  | getA s _ ih =>
    simp only [ApiValue.branchesAgree, Bool.and_eq_true] at ih
    exact ih.1
  | getD s _ ih =>
    simp only [ApiValue.branchesAgree, Bool.and_eq_true] at ih
    exact ih.2
  | setA s a h _ _ ihs iha =>
    simp only [ApiValue.branchesAgree, Bool.and_eq_true] at ihs iha ⊢
    exact ⟨iha, ihs.2⟩
  | setD s d h _ _ ihs ihd =>
    simp only [ApiValue.branchesAgree, Bool.and_eq_true] at ihs ihd ⊢
    exact ⟨ihs.1, ihd⟩
  | fieldA d _ ih =>
    simp only [ApiValue.branchesAgree, Bool.and_eq_true] at ih
    exact ih.1
  | fieldD d _ ih =>
    simp only [ApiValue.branchesAgree, Bool.and_eq_true] at ih
    exact ih.2
  | literal a d _ _ iha ihd =>
    simp only [ApiValue.branchesAgree, Bool.and_eq_true] at iha ihd ⊢
    exact ⟨iha, ihd⟩

/-- C14, amended: for every union value and union Def value obtained from the
constructors, from a setter, and from `Def()`, `Def.New()`, `A()`, `D()`,
`SetA`, `SetD` and the fields of a `StructWithUnionsDef` built from such
values, the branch index and the stored value agree in type (index 0 holds a
Float64, index 1 a String), and `B()`, `C()`, `E()`, `F()` return. -/
theorem obtainable_unions_accessors_return (x : ApiValue) (hx : Obtainable x) :
    x.branchesAgree = true ∧ x.accessorsReturn = true :=
  ⟨branchesAgree_of_obtainable x hx,
    accessorsReturn_of_branchesAgree x (branchesAgree_of_obtainable x hx)⟩

/-- Witness for C14: the struct Def of `NewStructWithUnions()` after `SetA`
with a union set to branch C. -/
theorem obtainable_unions_accessors_return_witness :
    Obtainable (ApiValue.structDef
      ((NewStructWithUnions { cells := [] }).1.SetA
        ((New__unionOfBOfFloat64AndCOfString { cells := [] }).1.SetC "x" { cells := [] }).1
        { cells := [] }).1.Def) ∧
    (ApiValue.structDef
      ((NewStructWithUnions { cells := [] }).1.SetA
        ((New__unionOfBOfFloat64AndCOfString { cells := [] }).1.SetC "x" { cells := [] }).1
        { cells := [] }).1.Def).branchesAgree = true ∧
    (ApiValue.structDef
      ((NewStructWithUnions { cells := [] }).1.SetA
        ((New__unionOfBOfFloat64AndCOfString { cells := [] }).1.SetC "x" { cells := [] }).1
        { cells := [] }).1.Def).accessorsReturn = true :=
  ⟨Obtainable.defOfStruct _ (Obtainable.setA _ _ _ (Obtainable.newStruct _)
      (Obtainable.setC _ _ _)),
    obtainable_unions_accessors_return _
      (Obtainable.defOfStruct _ (Obtainable.setA _ _ _ (Obtainable.newStruct _)
        (Obtainable.setC _ _ _)))⟩

/-- C14, as stated with the zero value of `StructWithUnionsDef` included, fails
there: its fields `A` and `D` hold index 0 with a nil value, so `B()` and `E()`
fail their type assertion, also on the struct that `New()` makes of it. -/
theorem zero_structDef_accessors_panic :
    (ApiValue.structDef StructWithUnionsDef.zeroValue).branchesAgree = false ∧
    StructWithUnionsDef.zeroValue.A.B = none ∧
    StructWithUnionsDef.zeroValue.D.E = none ∧
    (StructWithUnionsDef.zeroValue.New { cells := [] }).1.A.B = none ∧
    (StructWithUnionsDef.zeroValue.New { cells := [] }).1.D.E = none ∧
    (ApiValue.structDef StructWithUnionsDef.zeroValue).accessorsReturn = false := by
  decide

/-! ## Def and New -/

/-- C15: `def.New().Def()` equals `def`, and `s.Def().New()` has the same
branch index and branch value in `A()` and in `D()` as `s`; likewise for both
union types and their Def types. -/
theorem def_new_are_inverse :
    (∀ (d : StructWithUnionsDef) (h : Heap), (d.New h).1.Def = d) ∧
    (∀ (s : StructWithUnions) (h : Heap),
      (s.Def.New h).1.A.__unionIndex = s.A.__unionIndex ∧
      (s.Def.New h).1.A.__unionValue = s.A.__unionValue ∧
      (s.Def.New h).1.D.__unionIndex = s.D.__unionIndex ∧
      (s.Def.New h).1.D.__unionValue = s.D.__unionValue ∧
      (s.Def.New h).1.Def = s.Def) ∧
    (∀ (d : __unionOfBOfFloat64AndCOfStringDef) (h : Heap), (d.New h).1.Def = d) ∧
    (∀ (u : __unionOfBOfFloat64AndCOfString) (h : Heap),
      (u.Def.New h).1.__unionIndex = u.__unionIndex ∧
      (u.Def.New h).1.__unionValue = u.__unionValue ∧
      (u.Def.New h).1.B = u.B ∧ (u.Def.New h).1.C = u.C) ∧
    (∀ (d : __unionOfEOfFloat64AndFOfStringDef) (h : Heap), (d.New h).1.Def = d) ∧
    (∀ (u : __unionOfEOfFloat64AndFOfString) (h : Heap),
      (u.Def.New h).1.__unionIndex = u.__unionIndex ∧
      (u.Def.New h).1.__unionValue = u.__unionValue ∧
      (u.Def.New h).1.E = u.E ∧ (u.Def.New h).1.F = u.F) :=
  ⟨fun _ _ => rfl, fun _ _ => ⟨rfl, rfl, rfl, rfl, rfl⟩, fun _ _ => rfl,
    fun _ _ => ⟨rfl, rfl, rfl, rfl⟩, fun _ _ => rfl, fun _ _ => ⟨rfl, rfl, rfl, rfl⟩⟩

end gen

namespace csv_importer

/-! ## CSV importer: the fetch at the start of `main` -/

/-- C16: when `http.Get` returns a nil response with a non-nil error, `main`
does not reach the `log.Fatalf("Error fetching ...")` branch: it panics at
`defer res.Body.Close()`, which runs first.  With a nil error, a status code
other than 200 ends in the status `Error fetching` branch. -/
theorem fetch_error_panics_before_it_is_reported :
    mainFetch false "http://localhost:1/rows.csv" none (some "connection refused") =
      MainOutcome.panicNilDereference ∧
    (∀ (url err : String), mainFetch false url none (some err) =
      if url == "" then MainOutcome.usage else MainOutcome.panicNilDereference) ∧
    (∀ (url err : String),
      mainFetch false url none (some err) ≠ MainOutcome.fatalErrorFetching url err) ∧
    (∀ (url : String) (r : Response), mainFetch false url (some r) none =
      if url == "" then MainOutcome.usage
      else if r.StatusCode != 200 then MainOutcome.fatalStatus url r.Status
      else MainOutcome.readsCSV) := by
  refine ⟨by decide, fun url err => ?_, fun url err => ?_, fun url r => ?_⟩
  · by_cases hu : (url == "") = true <;> simp [mainFetch, hu]
  · by_cases hu : (url == "") = true <;> simp [mainFetch, hu]
  · by_cases hu : (url == "") = true <;> simp [mainFetch, hu]

end csv_importer

namespace csv_importer

/-! ## CSV importer: the collected refs are sorted back into source order -/

section order
variable {R : Type}

theorem collect_eq (arrivals : List (refIndex R)) : collect arrivals = arrivals := by
  have h : ∀ (l acc : List (refIndex R)),
      l.foldl (fun refList r => refList ++ [r]) acc = acc ++ l := by
    intro l
    induction l with
    | nil => intro acc; simp
    | cons x l ih => intro acc; simp [ih]
  simpa [collect] using h arrivals []

theorem projectRefs_eq (refList : refIndexList R) :
    projectRefs refList = refList.map (fun r => r.ref) := by
  have h : ∀ (l : List (refIndex R)) (acc : List R),
      l.foldl (fun refs r => refs ++ [r.ref]) acc = acc ++ l.map (fun r => r.ref) := by
    intro l
    induction l with
    | nil => intro acc; simp
    | cons x l ih => intro acc; simp [ih]
  simpa [projectRefs] using h refList []

theorem tagRows_index_ge (refs : List R) :
    ∀ (k : Int), ∀ x ∈ tagRows k refs, k ≤ x.index := by
  induction refs with
  | nil => intro k x hx; simp [tagRows] at hx
  | cons r refs ih =>
    intro k x hx
    simp only [tagRows, List.mem_cons] at hx
    rcases hx with rfl | hx
    · exact le_refl _
    · have := ih (k + 1) x hx
      omega

theorem tagRows_strictly_ascending (refs : List R) :
    ∀ (k : Int), (tagRows k refs).Pairwise (fun x y => x.index < y.index) := by
  induction refs with
  | nil => intro k; simp [tagRows]
  | cons r refs ih =>
    intro k
    simp only [tagRows, List.pairwise_cons]
    refine ⟨fun y hy => ?_, ih (k + 1)⟩
    have := tagRows_index_ge refs (k + 1) y hy
    show k < y.index
    omega

theorem tagRows_refs (refs : List R) :
    ∀ (k : Int), (tagRows k refs).map (fun r => r.ref) = refs := by
  induction refs with
  | nil => intro k; rfl
  | cons r refs ih => intro k; simp [tagRows, ih]

/-- Ascending order as `Less` determines it, read on the elements. -/
theorem pairwise_le_of_less (out : refIndexList R)
    (h : ∀ i j : Nat, i < j → j < out.Len → out.Less j i = some false) :
    out.Pairwise (fun x y => x.index ≤ y.index) := by
  rw [List.pairwise_iff_getElem]
  intro i j hi hj hij
  have := h i j hij hj
  simp only [refIndexList.Less, List.getElem?_eq_getElem hi, List.getElem?_eq_getElem hj,
    Option.some.injEq, decide_eq_false_iff_not, not_lt] at this
  exact this

theorem less_of_pairwise_le (out : refIndexList R)
    (h : out.Pairwise (fun x y => x.index ≤ y.index)) :
    ∀ i j : Nat, i < j → j < out.Len → out.Less j i = some false := by
  intro i j hij hj
  have hj1 : j < out.length := hj
  have hi : i < out.length := lt_trans hij hj1
  have := (List.pairwise_iff_getElem.mp h) i j hi hj1 hij
  simp only [refIndexList.Less, List.getElem?_eq_getElem hi, List.getElem?_eq_getElem hj1,
    Option.some.injEq, decide_eq_false_iff_not, not_lt]
  exact this

/-- A list in ascending `Less` order whose elements are the tagged rows is the
list of tagged rows. -/
theorem eq_tagRows_of_sortedByLess (refs : List R) (data out : refIndexList R)
    (hdata : data.Perm (tagRows 0 refs)) (hout : sortedByLess data out) :
    out = tagRows 0 refs := by
  obtain ⟨hperm, hless⟩ := hout
  have hp : out.Perm (tagRows 0 refs) := hperm.trans hdata
  have hle := pairwise_le_of_less out hless
  have hne0 : (tagRows (0 : Int) refs).Pairwise (fun x y => x.index ≠ y.index) :=
    (tagRows_strictly_ascending refs 0).imp (fun h => ne_of_lt h)
  have hne : out.Pairwise (fun x y => x.index ≠ y.index) :=
    (hp.pairwise_iff (fun h => h.symm)).mpr hne0
  have hlt : out.Pairwise (fun x y => x.index < y.index) :=
    (hle.and hne).imp (fun h => lt_of_le_of_ne h.1 h.2)
  haveI : IsAntisymm (refIndex R) (fun x y => x.index < y.index) :=
    ⟨fun a b h1 h2 => absurd (lt_trans h1 h2) (lt_irrefl _)⟩
  exact List.eq_of_perm_of_sorted hp hlt (tagRows_strictly_ascending refs 0)

theorem getElem?_adjacent (pre : List (refIndex R)) (y x : refIndex R)
    (post : List (refIndex R)) :
    (pre ++ y :: x :: post)[pre.length]? = some y ∧
    (pre ++ y :: x :: post)[pre.length + 1]? = some x := by
  induction pre with
  | nil => simp
  | cons p pre ih => simpa using ih

theorem less_adjacent (pre : List (refIndex R)) (y x : refIndex R) (post : List (refIndex R)) :
    refIndexList.Less (pre ++ y :: x :: post) (pre.length + 1) pre.length =
      some (decide (x.index < y.index)) := by
  obtain ⟨h0, h1⟩ := getElem?_adjacent pre y x post
  simp only [refIndexList.Less, h0, h1]

theorem swap_adjacent (pre : List (refIndex R)) (y x : refIndex R) (post : List (refIndex R)) :
    refIndexList.Swap (pre ++ y :: x :: post) (pre.length + 1) pre.length =
      some (pre ++ x :: y :: post) := by
  obtain ⟨h0, h1⟩ := getElem?_adjacent pre y x post
  simp only [refIndexList.Swap, h0, h1]
  congr 1
  induction pre with
  | nil => simp
  | cons p pre ih => simp

/-- The inner loop moves the element after a sorted run `pre` down into it. -/
theorem insertDown_spec (x : refIndex R) (pre : List (refIndex R)) :
    ∀ post : List (refIndex R), pre.Pairwise (fun a b => a.index ≤ b.index) →
      ∃ pre2 : List (refIndex R),
        insertDown (pre ++ x :: post) pre.length = some (pre2 ++ post) ∧
        pre2.Perm (pre ++ [x]) ∧ pre2.Pairwise (fun a b => a.index ≤ b.index) := by
  induction pre using List.reverseRecOn with
  | nil =>
    intro post _
    exact ⟨[x], rfl, List.Perm.refl _, List.pairwise_singleton _ _⟩
  | append_singleton pre y ih =>
    intro post hsorted
    have hdata : pre ++ [y] ++ x :: post = pre ++ y :: x :: post := by simp
    have hlen : (pre ++ [y]).length = pre.length + 1 := by simp
    rw [hdata, hlen]
    rw [List.pairwise_append] at hsorted
    obtain ⟨hpre, -, hy⟩ := hsorted
    have hy1 : ∀ a ∈ pre, a.index ≤ y.index := fun a ha => hy a ha y (List.mem_singleton_self y)
    by_cases hxy : x.index < y.index
    · obtain ⟨pre2, hrun, hperm, hsort⟩ := ih (y :: post) hpre
      refine ⟨pre2 ++ [y], ?_, ?_, ?_⟩
      · simp only [insertDown, less_adjacent, hxy, decide_True, swap_adjacent, hrun]
        simp
      · have h1 : (pre2 ++ [y]).Perm (pre ++ [x] ++ [y]) := hperm.append_right [y]
        refine h1.trans ?_
        simp only [List.append_assoc]
        exact List.Perm.append_left pre (List.Perm.swap y x [])
      · rw [List.pairwise_append]
        refine ⟨hsort, List.pairwise_singleton _ _, fun a ha b hb => ?_⟩
        rw [List.mem_singleton] at hb
        subst hb
        have ha1 := hperm.mem_iff.mp ha
        rw [List.mem_append, List.mem_singleton] at ha1
        rcases ha1 with ha1 | rfl
        · exact hy1 a ha1
        · exact le_of_lt hxy
    · refine ⟨pre ++ [y] ++ [x], ?_, List.Perm.refl _, ?_⟩
      · simp only [insertDown, less_adjacent, hxy, decide_False]
        simp
      · rw [List.pairwise_append]
        refine ⟨?_, List.pairwise_singleton _ _, fun a ha b hb => ?_⟩
        · rw [List.pairwise_append]
          exact ⟨hpre, List.pairwise_singleton _ _, hy⟩
        · rw [List.mem_singleton] at hb
          subst hb
          rw [List.mem_append, List.mem_singleton] at ha
          have hyx : y.index ≤ b.index := not_lt.mp hxy
          rcases ha with ha | rfl
          · exact le_trans (hy1 a ha) hyx
          · exact hyx

/-- The outer loop extends the sorted run `done` by the elements of `rest`. -/
theorem insertionLoop_spec (rest : List (refIndex R)) :
    ∀ done : List (refIndex R), done.Pairwise (fun a b => a.index ≤ b.index) →
      ∃ out : List (refIndex R),
        insertionLoop (done ++ rest) done.length rest.length = some out ∧
        out.Perm (done ++ rest) ∧ out.Pairwise (fun a b => a.index ≤ b.index) := by
  induction rest with
  | nil =>
    intro done hdone
    exact ⟨done, by simp [insertionLoop], by simp, hdone⟩
  | cons x rest ih =>
    intro done hdone
    obtain ⟨pre2, hrun, hperm, hsort⟩ := insertDown_spec x done rest hdone
    obtain ⟨out, hloop, hperm2, hsort2⟩ := ih pre2 hsort
    have hlen : pre2.length = done.length + 1 := by
      have := hperm.length_eq
      simpa using this
    refine ⟨out, ?_, ?_, hsort2⟩
    · simp only [List.length_cons, insertionLoop, hrun]
      rw [← hlen]
      exact hloop
    · refine hperm2.trans ?_
      have h1 : (pre2 ++ rest).Perm (done ++ [x] ++ rest) := hperm.append_right rest
      simpa using h1

/-- The insertion sort returns, and its result is what `sort.Sort` promises. -/
theorem insertionSort_sortedByLess (data : refIndexList R) :
    ∃ out, insertionSort data = some out ∧ sortedByLess data out := by
  cases data with
  | nil => exact ⟨[], rfl, List.Perm.refl _, fun i j _ hj => absurd hj (Nat.not_lt_zero j)⟩
  | cons a rest =>
    obtain ⟨out, hloop, hperm, hsort⟩ := insertionLoop_spec rest [a] (List.pairwise_singleton _ _)
    refine ⟨out, ?_, ?_, less_of_pairwise_le out hsort⟩
    · simpa [insertionSort, refIndexList.Len] using hloop
    · simpa using hperm

end order

/-- C11: for every list of refs tagged with their row indices 0..n-1 and every
order in which the (ref, index) pairs arrive at the collector, sorting the
collected `refIndexList` by its `Len`/`Swap`/`Less` and projecting the ref
field gives the refs in source order: for every result that `sort.Sort`
may produce, and for an insertion sort run on `Less` and `Swap`. -/
theorem sorted_refs_are_in_source_order {R : Type} (refs : List R)
    (arrivals : List (refIndex R)) (harrive : arrivals.Perm (tagRows 0 refs)) :
    (∀ out : refIndexList R, sortedByLess (collect arrivals) out → projectRefs out = refs) ∧
    (∃ out : refIndexList R, insertionSort (collect arrivals) = some out ∧
      sortedByLess (collect arrivals) out ∧ projectRefs out = refs) := by
  have hdata : (collect arrivals).Perm (tagRows 0 refs) := by
    rw [collect_eq]; exact harrive
  have key : ∀ out : refIndexList R, sortedByLess (collect arrivals) out →
      projectRefs out = refs := by
    intro out hout
    rw [eq_tagRows_of_sortedByLess refs (collect arrivals) out hdata hout, projectRefs_eq,
      tagRows_refs]
  obtain ⟨out, hrun, hsorted⟩ := insertionSort_sortedByLess (collect arrivals)
  exact ⟨key, out, hrun, hsorted, key out hsorted⟩

/-- Witness for C11: four rows whose refs arrive in the order c, a, d, b. -/
theorem sorted_refs_are_in_source_order_witness :
    ([⟨"c", 2⟩, ⟨"a", 0⟩, ⟨"d", 3⟩, ⟨"b", 1⟩] : List (refIndex String)).Perm
      (tagRows 0 ["a", "b", "c", "d"]) ∧
    ((∀ out : refIndexList String,
      sortedByLess (collect [⟨"c", 2⟩, ⟨"a", 0⟩, ⟨"d", 3⟩, ⟨"b", 1⟩]) out →
        projectRefs out = ["a", "b", "c", "d"]) ∧
    (∃ out : refIndexList String,
      insertionSort (collect [⟨"c", 2⟩, ⟨"a", 0⟩, ⟨"d", 3⟩, ⟨"b", 1⟩]) = some out ∧
      sortedByLess (collect [⟨"c", 2⟩, ⟨"a", 0⟩, ⟨"d", 3⟩, ⟨"b", 1⟩]) out ∧
      projectRefs out = ["a", "b", "c", "d"])) :=
  ⟨by decide,
    sorted_refs_are_in_source_order ["a", "b", "c", "d"]
      [⟨"c", 2⟩, ⟨"a", 0⟩, ⟨"d", 3⟩, ⟨"b", 1⟩] (by decide)⟩

end csv_importer
